import Mathlib

/-!
Verification of the listener supervision and cross-process delegation
subsystem of the openzca CLI (src/cli.ts), via a shallow embedding.

JavaScript values flowing through the delegation protocol and the inbound
normalizer are modelled by a small JSON value type; `JSON.parse` is an
external runtime primitive and is therefore passed in as an abstract
`decode : String → Option Json` parameter where a definition needs it.
-/

/-- JSON-like runtime value (the shape produced by `JSON.parse`). -/
inductive Json where
  | jnull : Json
  | jbool : Bool → Json
  | jnum : Int → Json
  | jstr : String → Json
  | jarr : List Json → Json
  | jobj : List (String × Json) → Json
deriving Repr

/-- Property access `record[key]` on a parsed object: `none` models JS
`undefined` (missing field or non-object receiver). -/
def jget : Json → String → Option Json
  | .jobj fields, key => (fields.find? (fun p => p.1 = key)).map (fun p => p.2)
  | _, _ => none

/-- JS truthiness of a possibly-undefined value (`undefined`, `null`,
`false`, `0`, `""` are falsy; arrays and objects are truthy). -/
def jsTruthy : Option Json → Bool
  | none => false
  | some .jnull => false
  | some (.jbool b) => b
  | some (.jnum n) => n != 0
  | some (.jstr s) => s ≠ ""
  | some (.jarr _) => true
  | some (.jobj _) => true

/-- JS strict equality `v === s` against a string literal. -/
def jsStrictEqStr (v : Option Json) (s : String) : Bool :=
  match v with
  | some (.jstr t) => t = s
  | _ => false

/-- `v ?? w`: JS nullish coalescing over possibly-undefined values. -/
def jsNullish (v w : Option Json) : Option Json :=
  match v with
  | none => w
  | some .jnull => w
  | some j => some j

/-!
## Thread-Type Resolver (`resolveUploadThreadType`, cli.ts:795-863)

The external effects consulted by the resolver (profile cache read, live
group-info probe) are modelled as pre-sampled outcomes: `Except Unit α`
is `error` when the underlying call threw (or timed out) and `ok` with
the observed data otherwise.
-/

inductive ZThreadType where
  | group : ZThreadType
  | user : ZThreadType
deriving DecidableEq, Repr

/-- Environment of one `resolveUploadThreadType` call.
`autoDetectEnabled` is `OPENZCA_UPLOAD_AUTO_THREAD_TYPE` (default false);
`probeEnabled` is `OPENZCA_UPLOAD_GROUP_PROBE` (default true);
`cacheResult` carries `(groupIds.has threadId, friendIds.has threadId)`;
`probeResult` carries `gridInfoMap` having an entry for `threadId`. -/
structure ResolveEnv where
  autoDetectEnabled : Bool
  probeEnabled : Bool
  cacheResult : Except Unit (Bool × Bool)
  probeResult : Except Unit Bool
deriving Repr

/-- Transcription of `resolveUploadThreadType`: explicit flag, else the
master auto-detect gate, else cached group/friend id match, else the
probe gate, else a live probe, else the user default. -/
def resolveUploadThreadType (groupFlag : Bool) (env : ResolveEnv) :
    ZThreadType × String :=
  if groupFlag then (.group, "explicit_group_flag")
  else if !env.autoDetectEnabled then (.user, "auto_detect_disabled")
  else
    let afterCache :=
      if !env.probeEnabled then (ZThreadType.user, "probe_disabled")
      else
        match env.probeResult with
        | .ok true => (ZThreadType.group, "probe_group_match")
        | _ => (ZThreadType.user, "default_user")
    match env.cacheResult with
    | .ok (true, _) => (.group, "cache_group_match")
    | .ok (false, true) => (.user, "cache_friend_match")
    | _ => afterCache

/-- The resolver as the claim words it: the cache branch and the probe
branch each toggled only by its own setting, with no master gate
(`cacheLookupEnabled` standing for the claim's "cache lookup is enabled"). -/
def resolveUploadThreadTypeClaimed (groupFlag : Bool) (cacheLookupEnabled : Bool)
    (env : ResolveEnv) : ZThreadType :=
  if groupFlag then .group
  else if cacheLookupEnabled && (match env.cacheResult with
      | .ok (g, _) => g
      | .error _ => false) then .group
  else if env.probeEnabled && (match env.probeResult with
      | .ok g => g
      | .error _ => false) then .group
  else .user

/-!
## Owner Lock (`isProcessAlive`, `readListenerOwnerRecord`,
`readActiveListenerOwner`, `acquireListenerOwnerLock`, cli.ts:321-424)

The lock file is a single shared cell.  A stored record is modelled at
the post-`JSON.parse` level: `pid` holds the result of
`parsePositiveIntFromUnknown` on the record's pid field (`none` when the
pid did not parse to a positive integer, in which case
`readListenerOwnerRecord` returns null).  Each file-system call of the
source (`writeFile` with flag `wx`, `readFile`, `rm`) is one atomic step
of the machine, so cross-process interleavings are real schedules.
-/

/-- `process.kill(pid, 0)` probe outcome. -/
inductive KillProbe where
  | ok : KillProbe
  | eperm : KillProbe
  | esrch : KillProbe
deriving DecidableEq, Repr

/-- Transcription of `isProcessAlive`: non-positive pid is dead, a
successful probe or `EPERM` counts alive, any other errno is dead. -/
def isProcessAlive (probe : Nat → KillProbe) (pid : Nat) : Bool :=
  if pid = 0 then false
  else
    match probe pid with
    | .ok => true
    | .eperm => true
    | .esrch => false

/-- A lock record file as `readListenerOwnerRecord` sees it. -/
structure OwnerRecordFile where
  pid : Option Nat
deriving DecidableEq, Repr

/-- The lock file location: absent, or holding one record. -/
abbrev LockCell := Option OwnerRecordFile

/-- Program counter of one process running `acquireListenerOwnerLock`.
`tryWrite a` is about to issue the `wx` write of attempt `a`;
`readOwner a` is about to read the existing record after `EEXIST`;
`purge1 a`/`purge2 a` are the two unconditional `rm` calls of the
stale path (one inside `readActiveListenerOwner`, one in the catch of
`acquireListenerOwnerLock`). -/
inductive AcqState where
  | tryWrite : Nat → AcqState
  | readOwner : Nat → AcqState
  | purge1 : Nat → AcqState
  | purge2 : Nat → AcqState
  | success : AcqState
  | conflict : Nat → AcqState
  | failed : AcqState
deriving DecidableEq, Repr

/-- One atomic step of `acquireListenerOwnerLock` for a process with pid
`myPid`, against the shared lock cell. Terminal states are stuck. -/
def acqStep (probe : Nat → KillProbe) (myPid : Nat) :
    AcqState → LockCell → AcqState × LockCell
  | .tryWrite a, cell =>
    if a ≥ 3 then (.failed, cell)
    else
      match cell with
      | none => (.success, some ⟨some myPid⟩)
      | some _ => (.readOwner a, cell)
  | .readOwner a, cell =>
    (match cell with
     | none => (.purge1 a, cell)
     | some r =>
       match r.pid with
       | none => (.purge1 a, cell)
       | some q => if isProcessAlive probe q then (.conflict q, cell) else (.purge1 a, cell))
  | .purge1 a, _ => (.purge2 a, none)
  | .purge2 a, _ => (.tryWrite (a + 1), none)
  | s, cell => (s, cell)

/-- Iterate `acqStep` for one process running alone. -/
def acqRun (probe : Nat → KillProbe) (myPid : Nat) :
    Nat → AcqState × LockCell → AcqState × LockCell
  | 0, sc => sc
  | n + 1, sc => acqRun probe myPid n (acqStep probe myPid sc.1 sc.2)

/-- Two processes racing on the same profile's lock. -/
structure AcqSys where
  s1 : AcqState
  s2 : AcqState
  cell : LockCell
deriving DecidableEq, Repr

/-- Scheduler step: `true` lets process 1 act, `false` process 2. -/
def acqSysStep (probe : Nat → KillProbe) (pid1 pid2 : Nat) (sys : AcqSys)
    (who : Bool) : AcqSys :=
  match who with
  | true =>
    let sc := acqStep probe pid1 sys.s1 sys.cell
    { sys with s1 := sc.1, cell := sc.2 }
  | false =>
    let sc := acqStep probe pid2 sys.s2 sys.cell
    { sys with s2 := sc.1, cell := sc.2 }

/-- Run the two-process race under a schedule. -/
def acqSysRun (probe : Nat → KillProbe) (pid1 pid2 : Nat)
    (sched : List Bool) (sys : AcqSys) : AcqSys :=
  sched.foldl (acqSysStep probe pid1 pid2) sys

/-- States from which the process still holds a live claim on the cell:
after `EEXIST` (about to read) or after winning the write. -/
def acqHoldsCell : AcqState → Prop
  | .readOwner _ => True
  | .success => True
  | _ => False

/-- Not inside the stale-purge window. -/
def acqNotPurge : AcqState → Prop
  | .purge1 _ => False
  | .purge2 _ => False
  | _ => True

/-- Race invariant for two acquirers starting from an absent lock file:
nobody is purging, a reader or winner implies the cell is occupied, the
cell only ever holds a racer's own record and only while that racer has
won, and at most one racer has won. -/
def AcqInv (pid1 pid2 : Nat) (sys : AcqSys) : Prop :=
  acqNotPurge sys.s1 ∧ acqNotPurge sys.s2 ∧
  (acqHoldsCell sys.s1 → sys.cell ≠ none) ∧
  (acqHoldsCell sys.s2 → sys.cell ≠ none) ∧
  (∀ r, sys.cell = some r →
    (r.pid = some pid1 ∧ sys.s1 = .success) ∨ (r.pid = some pid2 ∧ sys.s2 = .success)) ∧
  ¬(sys.s1 = .success ∧ sys.s2 = .success)

theorem acqInv_step (probe : Nat → KillProbe) (pid1 pid2 : Nat)
    (h1 : isProcessAlive probe pid1 = true) (h2 : isProcessAlive probe pid2 = true)
    (sys : AcqSys) (who : Bool) (hinv : AcqInv pid1 pid2 sys) :
    AcqInv pid1 pid2 (acqSysStep probe pid1 pid2 sys who) := by
  obtain ⟨s1, s2, cell⟩ := sys
  obtain ⟨hp1, hp2, hc1, hc2, hown, hboth⟩ := hinv
  simp only at hp1 hp2 hc1 hc2 hown hboth
  cases who
  case true =>
    cases s1 with
    | tryWrite a =>
      by_cases ha : a ≥ 3
      · have hstep : acqSysStep probe pid1 pid2 ⟨.tryWrite a, s2, cell⟩ true
            = ⟨.failed, s2, cell⟩ := by
          simp [acqSysStep, acqStep, ha]
        rw [hstep]
        refine ⟨trivial, hp2, by simp [acqHoldsCell], hc2, ?_, by simp⟩
        intro r hr
        rcases hown r hr with ⟨_, hs⟩ | h
        · exact absurd hs (by simp)
        · exact Or.inr h
      · cases cell with
        | none =>
          have hstep : acqSysStep probe pid1 pid2 ⟨.tryWrite a, s2, none⟩ true
              = ⟨.success, s2, some ⟨some pid1⟩⟩ := by
            simp [acqSysStep, acqStep, ha]
          rw [hstep]
          refine ⟨trivial, hp2, by simp, by simp, ?_, ?_⟩
          · intro r hr
            simp only [Option.some.injEq] at hr
            exact Or.inl ⟨by simp [← hr], rfl⟩
          · rintro ⟨-, hs2⟩
            exact (hc2 (by rw [show s2 = AcqState.success from hs2]; trivial)) rfl
        | some r0 =>
          have hstep : acqSysStep probe pid1 pid2 ⟨.tryWrite a, s2, some r0⟩ true
              = ⟨.readOwner a, s2, some r0⟩ := by
            simp [acqSysStep, acqStep, ha]
          rw [hstep]
          refine ⟨trivial, hp2, by simp, hc2, ?_, by simp⟩
          intro r hr
          rcases hown r hr with ⟨_, hs⟩ | h
          · exact absurd hs (by simp)
          · exact Or.inr h
    | readOwner a =>
      have hne : cell ≠ none := hc1 trivial
      cases cell with
      | none => exact absurd rfl hne
      | some r =>
        rcases hown r rfl with ⟨_, hs⟩ | ⟨hpid, hs⟩
        · exact absurd hs (by simp)
        · have hstep : acqSysStep probe pid1 pid2 ⟨.readOwner a, s2, some r⟩ true
              = ⟨.conflict pid2, s2, some r⟩ := by
            simp [acqSysStep, acqStep, hpid, h2]
          rw [hstep]
          refine ⟨trivial, hp2, by simp [acqHoldsCell], by intro _; simp, ?_, by simp⟩
          intro r' hr'
          simp only [Option.some.injEq] at hr'
          exact Or.inr ⟨by rw [← hr']; exact hpid, hs⟩
    | purge1 a => exact absurd hp1 (by simp [acqNotPurge])
    | purge2 a => exact absurd hp1 (by simp [acqNotPurge])
    | success => exact ⟨hp1, hp2, hc1, hc2, hown, hboth⟩
    | conflict q => exact ⟨hp1, hp2, hc1, hc2, hown, hboth⟩
    | failed => exact ⟨hp1, hp2, hc1, hc2, hown, hboth⟩
  case false =>
    cases s2 with
    | tryWrite a =>
      by_cases ha : a ≥ 3
      · have hstep : acqSysStep probe pid1 pid2 ⟨s1, .tryWrite a, cell⟩ false
            = ⟨s1, .failed, cell⟩ := by
          simp [acqSysStep, acqStep, ha]
        rw [hstep]
        refine ⟨hp1, trivial, hc1, by simp [acqHoldsCell], ?_, by simp⟩
        intro r hr
        rcases hown r hr with h | ⟨_, hs⟩
        · exact Or.inl h
        · exact absurd hs (by simp)
      · cases cell with
        | none =>
          have hstep : acqSysStep probe pid1 pid2 ⟨s1, .tryWrite a, none⟩ false
              = ⟨s1, .success, some ⟨some pid2⟩⟩ := by
            simp [acqSysStep, acqStep, ha]
          rw [hstep]
          refine ⟨hp1, trivial, by simp, by simp, ?_, ?_⟩
          · intro r hr
            simp only [Option.some.injEq] at hr
            exact Or.inr ⟨by simp [← hr], rfl⟩
          · rintro ⟨hs1, -⟩
            exact (hc1 (by rw [show s1 = AcqState.success from hs1]; trivial)) rfl
        | some r0 =>
          have hstep : acqSysStep probe pid1 pid2 ⟨s1, .tryWrite a, some r0⟩ false
              = ⟨s1, .readOwner a, some r0⟩ := by
            simp [acqSysStep, acqStep, ha]
          rw [hstep]
          refine ⟨hp1, trivial, hc1, by simp, ?_, by simp⟩
          intro r hr
          rcases hown r hr with h | ⟨_, hs⟩
          · exact Or.inl h
          · exact absurd hs (by simp)
    | readOwner a =>
      have hne : cell ≠ none := hc2 trivial
      cases cell with
      | none => exact absurd rfl hne
      | some r =>
        rcases hown r rfl with ⟨hpid, hs⟩ | ⟨_, hs⟩
        · have hstep : acqSysStep probe pid1 pid2 ⟨s1, .readOwner a, some r⟩ false
              = ⟨s1, .conflict pid1, some r⟩ := by
            simp [acqSysStep, acqStep, hpid, h1]
          rw [hstep]
          refine ⟨hp1, trivial, by intro _; simp, by simp [acqHoldsCell], ?_, by simp⟩
          intro r' hr'
          simp only [Option.some.injEq] at hr'
          exact Or.inl ⟨by rw [← hr']; exact hpid, hs⟩
        · exact absurd hs (by simp)
    | purge1 a => exact absurd hp2 (by simp [acqNotPurge])
    | purge2 a => exact absurd hp2 (by simp [acqNotPurge])
    | success => exact ⟨hp1, hp2, hc1, hc2, hown, hboth⟩
    | conflict q => exact ⟨hp1, hp2, hc1, hc2, hown, hboth⟩
    | failed => exact ⟨hp1, hp2, hc1, hc2, hown, hboth⟩

theorem acqInv_run (probe : Nat → KillProbe) (pid1 pid2 : Nat)
    (h1 : isProcessAlive probe pid1 = true) (h2 : isProcessAlive probe pid2 = true)
    (sched : List Bool) (sys : AcqSys) (hinv : AcqInv pid1 pid2 sys) :
    AcqInv pid1 pid2 (acqSysRun probe pid1 pid2 sched sys) := by
  induction sched generalizing sys with
  | nil => exact hinv
  | cons b rest ih =>
    exact ih _ (acqInv_step probe pid1 pid2 h1 h2 sys b hinv)

/-- Probe environment for the lock-race counterexample: pids 1 and 2 are
running processes, every other pid (in particular the stale 99) is gone. -/
def exProbe : Nat → KillProbe := fun q => if q = 1 ∨ q = 2 then .ok else .esrch

/-- Schedule of atomic file-system operations exhibiting the stale-record
race: both processes read the stale record, then their unconditional
deletes interleave with the winner's fresh write. -/
def exSchedule : List Bool :=
  [true, false, true, false, true, true, true, false, false, false]

/-- C1 counterexample: with a stale lock record (dead pid 99) already on
disk, there is an interleaving of the exact file-system operations of
`acquireListenerOwnerLock` under which BOTH racing processes (live pids 1
and 2) return success, because the loser's read-then-delete stale purge
removes the winner's freshly written record.  This falsifies the claim
that of two processes racing to acquire ownership at most one succeeds. -/
theorem C1_counterexample_both_acquire :
    isProcessAlive exProbe 99 = false ∧
    isProcessAlive exProbe 1 = true ∧
    isProcessAlive exProbe 2 = true ∧
    (acqSysRun exProbe 1 2 exSchedule
        ⟨.tryWrite 0, .tryWrite 0, some ⟨some 99⟩⟩).s1 = .success ∧
    (acqSysRun exProbe 1 2 exSchedule
        ⟨.tryWrite 0, .tryWrite 0, some ⟨some 99⟩⟩).s2 = .success := by
  refine ⟨rfl, rfl, rfl, ?_, ?_⟩ <;> rfl

/-- The amended C1 property, over an arbitrary probe environment, racer
pids, recorded pid `q`, schedule, attempt counter and cell content:
(1) starting from an ABSENT lock file, no interleaving lets both racers
succeed; (2) on a create-collision with a record whose pid is alive, the
acquirer reads it and fails with the ownership conflict naming that pid;
(3) a permission-denied probe counts as alive and conflicts the same way;
(4) a record with a dead pid is deleted and the write retried (and, with
no interference, the retry succeeds); (5) likewise for a record whose pid
field is unparsable; (6) an attempt counter that reaches 3 makes the loop
give up with the failure error instead of writing again. -/
def C1AmendedProp (probe : Nat → KillProbe) (pid1 pid2 q a : Nat)
    (sched : List Bool) (cell : LockCell) : Prop :=
  (¬((acqSysRun probe pid1 pid2 sched ⟨.tryWrite 0, .tryWrite 0, none⟩).s1 = .success ∧
     (acqSysRun probe pid1 pid2 sched ⟨.tryWrite 0, .tryWrite 0, none⟩).s2 = .success))
  ∧ (isProcessAlive probe q = true →
      acqRun probe pid1 2 (.tryWrite 0, some ⟨some q⟩) = (.conflict q, some ⟨some q⟩))
  ∧ (probe q = .eperm → q ≠ 0 →
      acqRun probe pid1 2 (.tryWrite 0, some ⟨some q⟩) = (.conflict q, some ⟨some q⟩))
  ∧ (isProcessAlive probe q = false →
      acqRun probe pid1 4 (.tryWrite 0, some ⟨some q⟩) = (.tryWrite 1, none) ∧
      acqRun probe pid1 5 (.tryWrite 0, some ⟨some q⟩) = (.success, some ⟨some pid1⟩))
  ∧ (acqRun probe pid1 4 (.tryWrite 0, some ⟨none⟩) = (.tryWrite 1, none) ∧
     acqRun probe pid1 5 (.tryWrite 0, some ⟨none⟩) = (.success, some ⟨some pid1⟩))
  ∧ (a ≥ 3 → acqStep probe pid1 (.tryWrite a) cell = (.failed, cell))

/-- C1 (amended): the create-if-absent write admits at most one winner,
so from a clean (absent) lock file at most one of two racing processes
acquires ownership, under every interleaving of their file-system
operations; with a pre-existing stale record the read-then-delete purge
admits a race in which both succeed (see the counterexample).  Collision
with a live recorded pid (EPERM counting as alive) fails with the
conflict error naming that pid; a dead or unparsable recorded pid is
deleted and the write retried; at most 3 write attempts are made before
giving up with an error. -/
theorem C1_owner_lock_amended (probe : Nat → KillProbe) (pid1 pid2 q a : Nat)
    (sched : List Bool) (cell : LockCell)
    (h1 : isProcessAlive probe pid1 = true)
    (h2 : isProcessAlive probe pid2 = true) :
    C1AmendedProp probe pid1 pid2 q a sched cell := by
  refine ⟨?_, ?_, ?_, ?_, ?_, ?_⟩
  · rintro ⟨hs1, hs2⟩
    have hinv := acqInv_run probe pid1 pid2 h1 h2 sched
      ⟨.tryWrite 0, .tryWrite 0, none⟩
      ⟨trivial, trivial, by simp [acqHoldsCell], by simp [acqHoldsCell],
       by simp, by simp⟩
    exact hinv.2.2.2.2.2 ⟨hs1, hs2⟩
  · intro halive
    simp [acqRun, acqStep, halive]
  · intro heperm hq0
    have halive : isProcessAlive probe q = true := by
      simp [isProcessAlive, heperm, hq0]
    simp [acqRun, acqStep, halive]
  · intro hdead
    constructor <;> simp [acqRun, acqStep, hdead]
  · constructor <;> simp [acqRun, acqStep]
  · intro ha
    simp [acqStep, ha]

/-- Closed witness for the amended C1 theorem at a concrete environment:
pids 1 and 2 alive, recorded pid 3 alive, one-step schedule. -/
theorem C1_owner_lock_amended_witness :
    isProcessAlive (fun _ => KillProbe.ok) 1 = true ∧
    isProcessAlive (fun _ => KillProbe.ok) 2 = true ∧
    C1AmendedProp (fun _ => KillProbe.ok) 1 2 3 3 [true] (some ⟨some 3⟩) :=
  ⟨by decide, by decide,
   C1_owner_lock_amended (fun _ => KillProbe.ok) 1 2 3 3 [true] (some ⟨some 3⟩)
     (by decide) (by decide)⟩

/-- C9 counterexample: with the explicit flag absent, the master
auto-detect setting disabled but probing enabled and the live probe
identifying the id as a group, the code resolves to direct-peer without
ever consulting the probe, while the claimed resolver (independent
per-branch toggles) resolves to group — so disabling the cache-lookup
branch does disable the probe branch, falsifying the independence claim. -/
theorem C9_counterexample_master_gate :
    resolveUploadThreadType false ⟨false, true, .ok (false, false), .ok true⟩
      = (.user, "auto_detect_disabled") ∧
    resolveUploadThreadTypeClaimed false false ⟨false, true, .ok (false, false), .ok true⟩
      = .group := by
  exact ⟨rfl, rfl⟩

/-- C9 (amended): precedence, first match wins: explicit group flag →
(only when the master auto-detect setting is enabled) cached group-id
membership → cached friend-id membership, which resolves to direct-peer →
(only when probing is also enabled) live group-info lookup → default
direct-peer.  The cache lookup and the live probe are both gated by the
single auto-detect setting; the probe is additionally toggleable by its
own setting, but disabling auto-detect disables the probe as well. -/
theorem C9_resolver_amended (b1 b2 : Bool) (cr : Except Unit (Bool × Bool))
    (pr : Except Unit Bool) (f : Bool) :
    (resolveUploadThreadType true ⟨b1, b2, cr, pr⟩ = (.group, "explicit_group_flag"))
    ∧ (resolveUploadThreadType false ⟨false, b2, cr, pr⟩ = (.user, "auto_detect_disabled"))
    ∧ (resolveUploadThreadType false ⟨true, b2, .ok (true, f), pr⟩
        = (.group, "cache_group_match"))
    ∧ (resolveUploadThreadType false ⟨true, b2, .ok (false, true), pr⟩
        = (.user, "cache_friend_match"))
    ∧ (cr = .ok (false, false) ∨ cr = .error () →
        (resolveUploadThreadType false ⟨true, false, cr, pr⟩ = (.user, "probe_disabled"))
        ∧ (resolveUploadThreadType false ⟨true, true, cr, .ok true⟩
            = (.group, "probe_group_match"))
        ∧ (pr = .ok false ∨ pr = .error () →
            resolveUploadThreadType false ⟨true, true, cr, pr⟩ = (.user, "default_user"))) := by
  refine ⟨rfl, rfl, rfl, rfl, ?_⟩
  rintro (rfl | rfl) <;>
    exact ⟨rfl, rfl, by rintro (rfl | rfl) <;> rfl⟩

/-- Closed witness for the amended C9 theorem: concrete toggles with a
cache miss and a failed probe resolve to the historical user default. -/
theorem C9_resolver_amended_witness :
    (resolveUploadThreadType false ⟨true, true, .ok (false, false), .error ()⟩
      = (.user, "default_user")) :=
  ((C9_resolver_amended true true (.ok (false, false)) (.error ()) false).2.2.2.2
    (Or.inl rfl)).2.2 (Or.inr rfl)

/-!
## Delegation Client (`tryUploadViaListenerIpc`, cli.ts:651-793) and the
upload command's use of it (cli.ts:3368-3430)

The socket is modelled by the stream of events its handlers receive.
`finish` destroys the socket and clears both timers, so a settled state
ignores every later event.  Each `new Error(...)` site of the source is
one constructor of `HardErrorKind`.
-/

/-- The distinct hard-error sites of `tryUploadViaListenerIpc`. -/
inductive HardErrorKind where
  | connectTimeoutErr : HardErrorKind
  | requestTimeoutErr : HardErrorKind
  | emptyResponse : HardErrorKind
  | invalidJson : HardErrorKind
  | mismatchedResponse : HardErrorKind
  | okFalse : Option Json → HardErrorKind
  | socketError : Option String → HardErrorKind
  | closedBeforeResponse : HardErrorKind

/-- Outcome of one delegation attempt: resolved as handled, resolved as
not handled (with the fallback reason), or rejected. -/
inductive UploadAttempt where
  | handled : Option Json → UploadAttempt
  | notHandled : String → UploadAttempt
  | hardError : HardErrorKind → UploadAttempt

/-- Mutable state of the client promise executor. -/
structure IpcClientState where
  settled : Option UploadAttempt
  connected : Bool
  requestSent : Bool
  responseBuffer : String
  connectTimerArmed : Bool

def clientInit : IpcClientState :=
  { settled := none, connected := false, requestSent := false,
    responseBuffer := "", connectTimerArmed := true }

/-- Events delivered to the client's socket/timer handlers. -/
inductive SockEvent where
  | connectEv : SockEvent
  | dataEv : String → SockEvent
  | errorEv : Option String → SockEvent
  | closeEv : SockEvent
  | connectTimeoutEv : SockEvent
  | requestTimeoutEv : SockEvent

/-- Split a character sequence at its first newline. -/
def splitAtNewline (cs : List Char) : Option (List Char × List Char) :=
  match cs with
  | [] => none
  | c :: rest =>
    if c = '\n' then some ([], rest)
    else (splitAtNewline rest).map (fun p => (c :: p.1, p.2))

/-- `buffer.indexOf("\n")` followed by `buffer.slice(0, newlineIndex)`:
the first newline-terminated chunk of the buffer, `none` when no newline
has arrived yet. -/
def takeFirstLine (buffer : String) : Option String :=
  (splitAtNewline buffer.data).map (fun p => String.mk p.1)

/-- JS `String.prototype.trim`: strip leading and trailing whitespace. -/
def jsTrim (s : String) : String :=
  String.mk (((s.data.dropWhile Char.isWhitespace).reverse.dropWhile
    Char.isWhitespace).reverse)

/-- The client's handling of one complete (already trimmed) response
line: empty → error; unparsable → error; wrong kind or requestId →
error; falsy `ok` → error carrying the `error` field; else accepted. -/
def clientHandleLine (decode : String → Option Json) (requestId : String)
    (line : String) : UploadAttempt :=
  if line = "" then .hardError .emptyResponse
  else
    match decode line with
    | none => .hardError .invalidJson
    | some parsed =>
      if !(jsStrictEqStr (jget parsed "kind") "upload_result")
          || !(jsStrictEqStr (jget parsed "requestId") requestId) then
        .hardError .mismatchedResponse
      else if !(jsTruthy (jget parsed "ok")) then
        .hardError (.okFalse (jget parsed "error"))
      else .handled (jget parsed "response")

/-- One handler invocation of `tryUploadViaListenerIpc`. -/
def clientStep (decode : String → Option Json) (requestId : String)
    (st : IpcClientState) (e : SockEvent) : IpcClientState :=
  match st.settled with
  | some _ => st
  | none =>
    match e with
    | .connectEv =>
      { st with connected := true, connectTimerArmed := false, requestSent := true }
    | .dataEv chunk =>
      let buf := st.responseBuffer ++ chunk
      match takeFirstLine buf with
      | none => { st with responseBuffer := buf }
      | some rawLine =>
        { st with responseBuffer := buf,
                  settled := some (clientHandleLine decode requestId (jsTrim rawLine)) }
    | .errorEv code =>
      if !st.connected && !st.requestSent
          && (code = some "ENOENT" || code = some "ECONNREFUSED") then
        { st with settled := some (.notHandled
            (if code = some "ENOENT" then "enoent" else "econnrefused")) }
      else
        { st with settled := some (.hardError (.socketError code)) }
    | .closeEv =>
      if !st.connected && !st.requestSent then
        { st with settled := some (.notHandled "socket_closed_before_connect") }
      else
        { st with settled := some (.hardError .closedBeforeResponse) }
    | .connectTimeoutEv =>
      if st.connectTimerArmed then
        { st with settled := some (.hardError .connectTimeoutErr) }
      else st
    | .requestTimeoutEv =>
      { st with settled := some (.hardError .requestTimeoutErr) }

/-- Run the client executor over a stream of socket/timer events. -/
def runClient (decode : String → Option Json) (requestId : String)
    (events : List SockEvent) : IpcClientState :=
  events.foldl (clientStep decode requestId) clientInit

/-- What the upload command does with the attempt outcome
(cli.ts:3377-3430): handled → use the listener's result, not handled →
fall back to a private connection, rejection → the command fails. -/
inductive UploadPath where
  | ipcDone : Option Json → UploadPath
  | fallbackOwnConnection : UploadPath
  | commandFails : HardErrorKind → UploadPath

def uploadActionDispatch : UploadAttempt → UploadPath
  | .handled r => .ipcDone r
  | .notHandled _ => .fallbackOwnConnection
  | .hardError e => .commandFails e

/-- C2: a response is accepted as success only if a complete line parses
to a value of kind `upload_result` whose `requestId` equals the
outstanding request's and whose `ok` is truthy; an `ENOENT` or
`ECONNREFUSED` socket error before the connection was made and before the
request was sent resolves as not-handled (so the upload command falls
back to its own connection); every other failure — socket error with any
other code or after the request was sent, connect or response timeout,
empty or unparsable or mismatched response, falsy `ok`, close after the
request was sent — is a rejection that makes the command fail and never
triggers the fallback. -/
theorem C2_delegation_client (decode : String → Option Json) (rid : String)
    (st : IpcClientState) (e : SockEvent) (code : Option String)
    (chunk : String) (r : Option Json) (o : UploadAttempt)
    (ek : HardErrorKind) (reason : String) :
    (st.settled = none →
      (clientStep decode rid st e).settled = some (.handled r) →
      ∃ c line v, e = .dataEv c ∧
        takeFirstLine (st.responseBuffer ++ c) = some line ∧
        decode (jsTrim line) = some v ∧
        jsStrictEqStr (jget v "kind") "upload_result" = true ∧
        jsStrictEqStr (jget v "requestId") rid = true ∧
        jsTruthy (jget v "ok") = true ∧
        r = jget v "response")
    ∧ (st.settled = some o → clientStep decode rid st e = st)
    ∧ (st.settled = none → st.connected = false → st.requestSent = false →
        (clientStep decode rid st (.errorEv (some "ENOENT"))).settled
            = some (.notHandled "enoent") ∧
        (clientStep decode rid st (.errorEv (some "ECONNREFUSED"))).settled
            = some (.notHandled "econnrefused") ∧
        (clientStep decode rid st .closeEv).settled
            = some (.notHandled "socket_closed_before_connect"))
    ∧ (st.settled = none →
        (code ≠ some "ENOENT" → code ≠ some "ECONNREFUSED" →
          (clientStep decode rid st (.errorEv code)).settled
              = some (.hardError (.socketError code)))
        ∧ (st.requestSent = true →
            (clientStep decode rid st (.errorEv code)).settled
                = some (.hardError (.socketError code))
            ∧ (clientStep decode rid st .closeEv).settled
                = some (.hardError .closedBeforeResponse))
        ∧ (st.connectTimerArmed = true →
            (clientStep decode rid st .connectTimeoutEv).settled
                = some (.hardError .connectTimeoutErr))
        ∧ (clientStep decode rid st .requestTimeoutEv).settled
              = some (.hardError .requestTimeoutErr))
    ∧ (st.settled = none → ∀ line,
        takeFirstLine (st.responseBuffer ++ chunk) = some line →
        (clientStep decode rid st (.dataEv chunk)).settled
            = some (clientHandleLine decode rid (jsTrim line)))
    ∧ (uploadActionDispatch (.handled r) = .ipcDone r
       ∧ uploadActionDispatch (.notHandled reason) = .fallbackOwnConnection
       ∧ uploadActionDispatch (.hardError ek) = .commandFails ek)
    ∧ (∀ line, (line ≠ "" → decode line = none →
          clientHandleLine decode rid line = .hardError .invalidJson)
        ∧ (clientHandleLine decode rid "" = .hardError .emptyResponse)
        ∧ (∀ v, decode line = some v → line ≠ "" →
            (jsStrictEqStr (jget v "kind") "upload_result" = false ∨
             jsStrictEqStr (jget v "requestId") rid = false) →
            clientHandleLine decode rid line = .hardError .mismatchedResponse)
        ∧ (∀ v, decode line = some v → line ≠ "" →
            jsStrictEqStr (jget v "kind") "upload_result" = true →
            jsStrictEqStr (jget v "requestId") rid = true →
            jsTruthy (jget v "ok") = false →
            clientHandleLine decode rid line = .hardError (.okFalse (jget v "error")))) := by
  refine ⟨?_, ?_, ?_, ?_, ?_, ⟨rfl, rfl, rfl⟩, ?_⟩
  · intro hs hacc
    cases e with
    | connectEv => simp [clientStep, hs] at hacc
    | dataEv c =>
      simp only [clientStep, hs] at hacc
      cases htl : takeFirstLine (st.responseBuffer ++ c) with
      | none => rw [htl] at hacc; simp at hacc
      | some rawLine =>
        rw [htl] at hacc
        simp only [Option.some.injEq] at hacc
        refine ⟨c, rawLine, ?_⟩
        unfold clientHandleLine at hacc
        split at hacc
        · exact absurd hacc (by simp)
        · split at hacc
          next hdec => exact absurd hacc (by simp)
          next v hdec =>
            split at hacc
            next hmm => exact absurd hacc (by simp)
            next hmm =>
              split at hacc
              next hok => exact absurd hacc (by simp)
              next hok =>
                simp only [Bool.or_eq_true, Bool.not_eq_true', not_or,
                  Bool.not_eq_false] at hmm
                simp only [Bool.not_eq_true', Bool.not_eq_false] at hok
                simp only [UploadAttempt.handled.injEq] at hacc
                exact ⟨v, rfl, htl, hdec, hmm.1, hmm.2, hok, hacc.symm⟩
    | errorEv c =>
      simp only [clientStep, hs] at hacc
      split at hacc <;> simp at hacc
    | closeEv =>
      simp only [clientStep, hs] at hacc
      split at hacc <;> simp at hacc
    | connectTimeoutEv =>
      simp only [clientStep, hs] at hacc
      split at hacc <;> simp [hs] at hacc
    | requestTimeoutEv =>
      simp only [clientStep, hs] at hacc
      simp at hacc
  · intro hset
    simp [clientStep, hset]
  · intro hs hconn hsent
    refine ⟨?_, ?_, ?_⟩
    · simp [clientStep, hs, hconn, hsent]
    · simp [clientStep, hs, hconn, hsent]
    · simp [clientStep, hs, hconn, hsent]
  · intro hs
    refine ⟨?_, ?_, ?_, ?_⟩
    · intro hne1 hne2
      simp [clientStep, hs, hne1, hne2]
    · intro hsent
      constructor
      · simp [clientStep, hs, hsent]
      · simp [clientStep, hs, hsent]
    · intro harmed
      simp [clientStep, hs, harmed]
    · simp [clientStep, hs]
  · intro hs line htl
    simp [clientStep, hs, htl]
  · intro line
    refine ⟨?_, rfl, ?_, ?_⟩
    · intro hne hdec
      simp [clientHandleLine, hne, hdec]
    · intro v hdec hne hbad
      rcases hbad with hb | hb <;>
        simp [clientHandleLine, hne, hdec, hb]
    · intro v hdec hne hk hr hok
      simp [clientHandleLine, hne, hdec, hk, hr, hok]

/-- A well-formed success response used by the C2 witness. -/
def wResp : Json :=
  .jobj [("kind", .jstr "upload_result"), ("requestId", .jstr "r1"),
         ("ok", .jbool true), ("response", .jnull)]

/-- Closed witness for C2 at a concrete state and decoder: a fresh client
turns `ENOENT` into the not-handled fallback, and a complete matching
response line into acceptance. -/
theorem C2_delegation_client_witness :
    clientInit.settled = none ∧ clientInit.connected = false ∧
    clientInit.requestSent = false ∧
    (clientStep (fun _ => some wResp) "r1" clientInit
        (.errorEv (some "ENOENT"))).settled = some (.notHandled "enoent") ∧
    (clientStep (fun _ => some wResp) "r1" clientInit
        (.dataEv "x\n")).settled = some (.handled (some .jnull)) := by
  refine ⟨rfl, rfl, rfl, ?_, ?_⟩
  · exact ((C2_delegation_client (fun _ => some wResp) "r1" clientInit
      (.errorEv (some "ENOENT")) none "" none (.notHandled "") .emptyResponse
      "").2.2.1 rfl rfl rfl).1
  · have h := (C2_delegation_client (fun _ => some wResp) "r1" clientInit
      (.dataEv "x\n") none "x\n" none (.notHandled "") .emptyResponse
      "").2.2.2.2.1 rfl "x" (by decide)
    rw [h]
    rfl

/-!
## Delegation Server (`startListenerIpcServer`, cli.ts:426-649)

Each connection's handler closure is modelled as its own state; the
actual upload (`api.sendMessage` under `withTimeout`) is an external
effect and enters as a pre-sampled `uploadOutcome : Except String Json`.
`sendResponse` models `socket.end(JSON.stringify(response) + "\n")`: it
both writes the one response and closes the connection, and is a no-op
once `done` is set.
-/

/-- An `upload_result` response as the server builds it.  `requestId`
echoes the raw request field (`none` = undefined). -/
structure UploadIpcResponse where
  requestId : Option Json
  ok : Bool
  error : Option String
  response : Option Json

/-- Mutable state of one server-side connection closure. -/
structure IpcConnState where
  buffer : String
  done : Bool
  sent : List UploadIpcResponse

def connInit : IpcConnState := { buffer := "", done := false, sent := [] }

def sendResponse (st : IpcConnState) (resp : UploadIpcResponse) : IpcConnState :=
  if st.done then st else { st with done := true, sent := st.sent ++ [resp] }

def failResp (rid : Option Json) (msg : String) : UploadIpcResponse :=
  { requestId := rid, ok := false, error := some msg, response := none }

/-- `parsed.requestId || ""` — the raw field when truthy, else `""`. -/
def jsOrEmptyStr (v : Option Json) : Option Json :=
  if jsTruthy v then v else some (.jstr "")

/-- `!Array.isArray(parsed.attachments) || parsed.attachments.length === 0`. -/
def invalidAttachments (v : Option Json) : Bool :=
  match v with
  | some (.jarr xs) => xs.isEmpty
  | _ => true

/-- The server's `handleRequest` on one complete trimmed line: parse →
kind → profile → threadId/attachments, first failure answered with its
error response; on a valid request the upload outcome is answered. -/
def handleRequest (decode : String → Option Json) (profile : String)
    (uploadOutcome : Except String Json) (st : IpcConnState)
    (line : String) : IpcConnState :=
  if st.done then st
  else
    match decode line with
    | none => sendResponse st (failResp (some (.jstr "")) "Invalid JSON request.")
    | some parsed =>
      if !(jsStrictEqStr (jget parsed "kind") "upload") then
        sendResponse st
          (failResp (jsOrEmptyStr (jget parsed "requestId")) "Unsupported IPC request kind.")
      else if !(jsStrictEqStr (jget parsed "profile") profile) then
        sendResponse st (failResp (jget parsed "requestId") "Profile mismatch.")
      else if !(jsTruthy (jget parsed "threadId"))
          || invalidAttachments (jget parsed "attachments") then
        sendResponse st (failResp (jget parsed "requestId") "Invalid upload payload.")
      else
        match uploadOutcome with
        | .ok resp =>
          sendResponse st
            { requestId := jget parsed "requestId", ok := true
            , error := none, response := some resp }
        | .error e => sendResponse st (failResp (jget parsed "requestId") e)

/-- The connection's data handler: append chunk, enforce the 2,000,000
character buffer cap, then wait for a newline, clear the buffer, reject
an empty line, else hand the line to `handleRequest`. -/
def serverConnStep (decode : String → Option Json) (profile : String)
    (uploadOutcome : Except String Json) (st : IpcConnState)
    (chunk : String) : IpcConnState :=
  if st.done then st
  else
    let buf := st.buffer ++ chunk
    if buf.length > 2000000 then
      sendResponse { st with buffer := buf }
        (failResp (some (.jstr "")) "IPC request too large.")
    else
      match takeFirstLine buf with
      | none => { st with buffer := buf }
      | some line =>
        let st1 := { st with buffer := "" }
        if jsTrim line = "" then
          sendResponse st1 (failResp (some (.jstr "")) "Empty IPC request.")
        else handleRequest decode profile uploadOutcome st1 (jsTrim line)

/-- Fold a connection over its received chunks. -/
def runServerConn (decode : String → Option Json) (profile : String)
    (uploadOutcome : Except String Json) (chunks : List String) : IpcConnState :=
  chunks.foldl (serverConnStep decode profile uploadOutcome) connInit

/-- The listener process holds one closure per accepted socket; a data
event for connection `id` only touches that closure's state. -/
def serverSystemStep (decode : String → Option Json) (profile : String)
    (uploadOutcome : Except String Json) (sys : Nat → IpcConnState)
    (id : Nat) (chunk : String) : Nat → IpcConnState :=
  fun j => if j = id then serverConnStep decode profile uploadOutcome (sys j) chunk else sys j

/-- The bytes actually written on the wire for a connection state, given
a serializer: each response is newline-terminated (`socket.end` of the
serialized response plus `"\n"`). -/
def wireOutput (enc : UploadIpcResponse → String) (st : IpcConnState) : String :=
  String.join (st.sent.map (fun r => enc r ++ "\n"))

/-- Connection-state invariant: never more than one response written,
and none before the connection is marked done. -/
def ConnOk (st : IpcConnState) : Prop :=
  st.sent.length ≤ 1 ∧ (st.done = false → st.sent = [])

theorem connOk_send (st : IpcConnState) (resp : UploadIpcResponse)
    (h : st.done = false) (hs : st.sent = []) : ConnOk (sendResponse st resp) := by
  simp [ConnOk, sendResponse, h, hs]

theorem connOk_handle (decode : String → Option Json) (profile : String)
    (uo : Except String Json) (st : IpcConnState) (line : String)
    (h : st.done = false) (hs : st.sent = []) :
    ConnOk (handleRequest decode profile uo st line) := by
  unfold handleRequest
  rw [h]
  simp only [Bool.false_eq_true, if_false]
  split
  · exact connOk_send _ _ h hs
  · split
    · exact connOk_send _ _ h hs
    · split
      · exact connOk_send _ _ h hs
      · split
        · exact connOk_send _ _ h hs
        · split
          · exact connOk_send _ _ h hs
          · exact connOk_send _ _ h hs

theorem connOk_step (decode : String → Option Json) (profile : String)
    (uo : Except String Json) (st : IpcConnState) (chunk : String)
    (h : ConnOk st) : ConnOk (serverConnStep decode profile uo st chunk) := by
  obtain ⟨hlen, hdone⟩ := h
  unfold serverConnStep
  cases hd : st.done with
  | true => exact ⟨hlen, hdone⟩
  | false =>
    have hs : st.sent = [] := hdone hd
    simp only [Bool.false_eq_true, if_false]
    split
    · exact connOk_send _ _ rfl hs
    · split
      · exact ⟨by simpa using hlen, by intro _; simpa using hs⟩
      · split
        · exact connOk_send _ _ rfl hs
        · exact connOk_handle _ _ _ _ _ rfl hs

/-- C3: the delegation server validates each connection's request in the
order parse → kind → profile → threadId/attachments, the first failing
check is answered with exactly one newline-terminated error response
(never a silent close); at most one response is ever written on a
connection; a connection whose buffered input exceeds 2,000,000
characters is failed and closed by that same mechanism; and a data event
on one connection leaves every other connection's state untouched. -/
theorem C3_ipc_server_validation (decode : String → Option Json)
    (profile : String) (uo : Except String Json) (st : IpcConnState)
    (chunk buf line e : String) (resp : Json)
    (enc : UploadIpcResponse → String) (sys : Nat → IpcConnState)
    (id j : Nat) :
    (∀ chunks, (runServerConn decode profile uo chunks).sent.length ≤ 1)
    ∧ (st.done = false → st.sent = [] → st.buffer ++ chunk = buf →
        buf.length > 2000000 →
        (serverConnStep decode profile uo st chunk).sent
            = [failResp (some (.jstr "")) "IPC request too large."]
        ∧ (serverConnStep decode profile uo st chunk).done = true)
    ∧ (st.done = false → st.sent = [] → st.buffer ++ chunk = buf →
        ¬(buf.length > 2000000) → takeFirstLine buf = some line →
        jsTrim line = "" →
        (serverConnStep decode profile uo st chunk).sent
            = [failResp (some (.jstr "")) "Empty IPC request."])
    ∧ (st.done = false → st.sent = [] → st.buffer ++ chunk = buf →
        ¬(buf.length > 2000000) → takeFirstLine buf = some line →
        jsTrim line ≠ "" →
        ((decode (jsTrim line) = none →
          (serverConnStep decode profile uo st chunk).sent
              = [failResp (some (.jstr "")) "Invalid JSON request."])
        ∧ (∀ v, decode (jsTrim line) = some v →
            jsStrictEqStr (jget v "kind") "upload" = false →
            (serverConnStep decode profile uo st chunk).sent
                = [failResp (jsOrEmptyStr (jget v "requestId"))
                    "Unsupported IPC request kind."])
        ∧ (∀ v, decode (jsTrim line) = some v →
            jsStrictEqStr (jget v "kind") "upload" = true →
            jsStrictEqStr (jget v "profile") profile = false →
            (serverConnStep decode profile uo st chunk).sent
                = [failResp (jget v "requestId") "Profile mismatch."])
        ∧ (∀ v, decode (jsTrim line) = some v →
            jsStrictEqStr (jget v "kind") "upload" = true →
            jsStrictEqStr (jget v "profile") profile = true →
            (jsTruthy (jget v "threadId") = false ∨
             invalidAttachments (jget v "attachments") = true) →
            (serverConnStep decode profile uo st chunk).sent
                = [failResp (jget v "requestId") "Invalid upload payload."])
        ∧ (∀ v, decode (jsTrim line) = some v →
            jsStrictEqStr (jget v "kind") "upload" = true →
            jsStrictEqStr (jget v "profile") profile = true →
            jsTruthy (jget v "threadId") = true →
            invalidAttachments (jget v "attachments") = false →
            (uo = .ok resp →
              (serverConnStep decode profile uo st chunk).sent
                  = [{ requestId := jget v "requestId", ok := true
                     , error := none, response := some resp }])
            ∧ (uo = .error e →
              (serverConnStep decode profile uo st chunk).sent
                  = [failResp (jget v "requestId") e]))))
    ∧ (∀ st2 r, st2.sent = [r] → wireOutput enc st2 = enc r ++ "\n")
    ∧ (j ≠ id →
        serverSystemStep decode profile uo sys id chunk j = sys j) := by
  have hstep : ∀ (hd : st.done = false) (hb : st.buffer ++ chunk = buf)
      (hlen : ¬(buf.length > 2000000)) (htl : takeFirstLine buf = some line)
      (hne : jsTrim line ≠ ""),
      serverConnStep decode profile uo st chunk
        = handleRequest decode profile uo { st with buffer := "" } (jsTrim line) := by
    intro hd hb hlen htl hne
    unfold serverConnStep
    rw [hd]
    simp only [Bool.false_eq_true, if_false, hb, htl, hlen, if_neg hlen]
    rw [if_neg hne]
  refine ⟨?_, ?_, ?_, ?_, ?_, ?_⟩
  · intro chunks
    have h : ConnOk (runServerConn decode profile uo chunks) := by
      unfold runServerConn
      have hinit : ConnOk connInit := ⟨by simp [connInit], fun _ => rfl⟩
      generalize connInit = st0 at hinit ⊢
      induction chunks generalizing st0 with
      | nil => exact hinit
      | cons c rest ih =>
        exact ih _ (connOk_step decode profile uo st0 c hinit)
    exact h.1
  · intro hd hs hb hlen
    unfold serverConnStep
    rw [hd]
    simp only [Bool.false_eq_true, if_false, hb]
    rw [if_pos hlen]
    simp [sendResponse, hs]
  · intro hd hs hb hlen htl hemp
    unfold serverConnStep
    rw [hd]
    simp only [Bool.false_eq_true, if_false, hb, htl, if_neg hlen]
    rw [if_pos hemp]
    simp [sendResponse, hs]
  · intro hd hs hb hlen htl hne
    rw [hstep hd hb hlen htl hne]
    refine ⟨?_, ?_, ?_, ?_, ?_⟩
    · intro hdec
      simp [handleRequest, hdec, sendResponse, hs, hd]
    · intro v hdec hkind
      simp [handleRequest, hdec, hkind, sendResponse, hs, hd]
    · intro v hdec hkind hprof
      simp [handleRequest, hdec, hkind, hprof, sendResponse, hs, hd]
    · intro v hdec hkind hprof hbad
      rcases hbad with hb1 | hb1 <;>
        simp [handleRequest, hdec, hkind, hprof, hb1, sendResponse, hs, hd]
    · intro v hdec hkind hprof hth hatt
      constructor
      · rintro rfl
        simp [handleRequest, hdec, hkind, hprof, hth, hatt, sendResponse, hs, hd]
      · rintro rfl
        simp [handleRequest, hdec, hkind, hprof, hth, hatt, sendResponse, hs, hd]
  · intro st2 r hr
    simp [wireOutput, hr, String.join, String.append_empty, String.empty_append]
  · intro hj
    simp [serverSystemStep, hj]

/-- A well-formed upload request for a different profile, for the C3
witness. -/
def wReq : Json :=
  .jobj [("kind", .jstr "upload"), ("requestId", .jstr "q1"),
         ("profile", .jstr "px"), ("threadId", .jstr "t"),
         ("attachments", .jarr [.jstr "a"])]

/-- Closed witness for C3: a one-line connection carrying a request for
profile `px` received by the server for profile `p` is answered with
exactly the profile-mismatch error response. -/
theorem C3_ipc_server_validation_witness :
    (runServerConn (fun s => if s = "q" then some wReq else none) "p"
        (.ok .jnull) ["q\n"]).sent.length ≤ 1 ∧
    (serverConnStep (fun s => if s = "q" then some wReq else none) "p"
        (.ok .jnull) connInit "q\n").sent
      = [failResp (some (.jstr "q1")) "Profile mismatch."] := by
  have h := C3_ipc_server_validation (fun s => if s = "q" then some wReq else none)
    "p" (.ok .jnull) connInit "q\n" "q\n" "q" "" .jnull (fun _ => "")
    (fun _ => connInit) 0 1
  refine ⟨h.1 ["q\n"], ?_⟩
  exact (h.2.2.2.1 rfl rfl rfl (by decide) (by decide) (by decide)).2.2.1
    wReq rfl rfl rfl

/-!
## Listener Lifecycle (listen action, cli.ts:4431-4457, 4580-4595,
4919-5034)

Timers are modelled by absolute deadlines; a timer-fire event is enabled
only while its deadline is armed and the clock has reached it, matching
`setTimeout` (which never fires early and fires at most once).  `finish`
transcribes the `finish` closure: it marks the session finished, clears
the recycle and keep-alive-restart timers, and clears the force-exit
timer only when no recycle exit is pending.  `gracefulExitEv` is the
process reaching its natural exit after `finish` resolves the listen
promise, using the assigned `process.exitCode` (0 when unset).
-/

structure ListenCfg where
  supervised : Bool
  keepAlive : Bool
  recycleMs : Nat
  keepAliveRestartDelayMs : Nat
  keepAliveRestartOnAnyClose : Bool

/-- `recycleEnabled = !supervised && Boolean(opts.keepAlive) && recycleMs > 0`. -/
def recycleEnabled (c : ListenCfg) : Bool :=
  !c.supervised && c.keepAlive && decide (c.recycleMs > 0)

def recycleExitCode : Nat := 75

structure ListenState where
  now : Nat
  recycleDeadline : Option Nat
  recyclePendingExit : Bool
  recycleFiredAt : Option Nat
  exitCode : Option Nat
  exited : Option Nat
  forceExitDeadline : Option Nat
  finished : Bool
  restartDeadline : Option Nat
  listenerStopped : Bool

def listenInit (c : ListenCfg) : ListenState :=
  { now := 0,
    recycleDeadline := if recycleEnabled c then some c.recycleMs else none,
    recyclePendingExit := false, recycleFiredAt := none, exitCode := none,
    exited := none, forceExitDeadline := none, finished := false,
    restartDeadline := none, listenerStopped := false }

def finishListen (s : ListenState) : ListenState :=
  if s.finished then s
  else
    { s with
      finished := true,
      recycleDeadline := none,
      forceExitDeadline := if s.recyclePendingExit then s.forceExitDeadline else none,
      restartDeadline := none }

inductive LEvent where
  | tick : Nat → LEvent
  | connectedEv : LEvent
  | messageEv : LEvent
  | closedEv : Nat → LEvent
  | recycleFireEv : LEvent
  | forceExitFireEv : LEvent
  | gracefulExitEv : LEvent
  | signalEv : LEvent

def listenStep (c : ListenCfg) (s : ListenState) : LEvent → ListenState
  | .tick dt => if s.exited.isSome then s else { s with now := s.now + dt }
  | .connectedEv =>
    if s.exited.isSome then s else { s with restartDeadline := none }
  | .messageEv => s
  | .closedEv code =>
    if s.exited.isSome then s
    else if !c.keepAlive || c.supervised then finishListen s
    else if c.keepAliveRestartOnAnyClose || code == 1000 || code == 3000 then
      { s with restartDeadline := some (s.now + c.keepAliveRestartDelayMs) }
    else s
  | .recycleFireEv =>
    if s.exited.isSome then s
    else
      match s.recycleDeadline with
      | some d =>
        if s.now ≥ d then
          finishListen { s with
            exitCode := some recycleExitCode,
            recyclePendingExit := true,
            recycleFiredAt := some s.now,
            forceExitDeadline := some (s.now + 3000),
            listenerStopped := true,
            recycleDeadline := none }
        else s
      | none => s
  | .forceExitFireEv =>
    if s.exited.isSome then s
    else
      match s.forceExitDeadline with
      | some d => if s.now ≥ d then { s with exited := some recycleExitCode } else s
      | none => s
  | .gracefulExitEv =>
    if s.exited.isSome then s
    else if s.finished then { s with exited := some (s.exitCode.getD 0) } else s
  | .signalEv =>
    if s.exited.isSome then s else finishListen { s with listenerStopped := true }

def runListen (c : ListenCfg) (events : List LEvent) : ListenState :=
  events.foldl (listenStep c) (listenInit c)

/-- Lifecycle invariant carrying everything C4 needs: the recycle
deadline only ever holds the configured duration; in supervised mode the
recycle timer is never armed and never fires; once fired, the fire time
is at least the configured duration, the timer is disarmed forever (so
it fires at most once), the exit code 75 is assigned, the listener has
been stopped, and the force-exit timer is armed 3000 ms after the fire. -/
def ListenInv (c : ListenCfg) (s : ListenState) : Prop :=
  (∀ d, s.recycleDeadline = some d → d = c.recycleMs ∧ recycleEnabled c = true)
  ∧ (c.supervised = true → s.recycleDeadline = none ∧ s.recycleFiredAt = none)
  ∧ (∀ t, s.recycleFiredAt = some t →
      t ≥ c.recycleMs ∧ s.recycleDeadline = none ∧ s.exitCode = some recycleExitCode
      ∧ s.listenerStopped = true ∧ s.recyclePendingExit = true
      ∧ s.forceExitDeadline = some (t + 3000))
theorem listenInv_step (c : ListenCfg) (s : ListenState) (e : LEvent)
    (h : ListenInv c s) : ListenInv c (listenStep c s e) := by
  obtain ⟨h1, h2, h3⟩ := h
  cases e with
  | tick dt =>
    simp only [listenStep]
    split
    · exact ⟨h1, h2, h3⟩
    · exact ⟨h1, h2, h3⟩
  | connectedEv =>
    simp only [listenStep]
    split
    · exact ⟨h1, h2, h3⟩
    · exact ⟨h1, h2, h3⟩
  | messageEv => exact ⟨h1, h2, h3⟩
  | closedEv code =>
    simp only [listenStep]
    split
    · exact ⟨h1, h2, h3⟩
    · split
      · unfold finishListen
        split
        · exact ⟨h1, h2, h3⟩
        · refine ⟨by simp, fun hs => ⟨rfl, (h2 hs).2⟩, fun t ht => ?_⟩
          obtain ⟨h3a, h3b, h3c, h3d, h3e, h3f⟩ := h3 t ht
          refine ⟨h3a, rfl, h3c, h3d, h3e, ?_⟩
          rw [h3e]
          simpa using h3f
      · split
        · exact ⟨h1, h2, h3⟩
        · exact ⟨h1, h2, h3⟩
  | recycleFireEv =>
    simp only [listenStep]
    split
    · exact ⟨h1, h2, h3⟩
    · cases hdl : s.recycleDeadline with
      | none => exact ⟨h1, h2, h3⟩
      | some d =>
        show ListenInv c (if s.now ≥ d then _ else s)
        split
        next hnow =>
          unfold finishListen
          split
          · refine ⟨by simp, ?_, fun t ht => ?_⟩
            · intro hs
              exact absurd (h2 hs).1 (by rw [hdl]; simp)
            · simp only [Option.some.injEq] at ht
              exact ⟨by rw [← ht]; exact (h1 d hdl).1 ▸ hnow, rfl, rfl, rfl, rfl,
                by rw [← ht]⟩
          · refine ⟨by simp, ?_, fun t ht => ?_⟩
            · intro hs
              exact absurd (h2 hs).1 (by rw [hdl]; simp)
            · simp only [Option.some.injEq] at ht
              exact ⟨by rw [← ht]; exact (h1 d hdl).1 ▸ hnow, rfl, rfl, rfl, rfl,
                by simp [← ht]⟩
        next => exact ⟨h1, h2, h3⟩
  | forceExitFireEv =>
    simp only [listenStep]
    split
    · exact ⟨h1, h2, h3⟩
    · cases hfd : s.forceExitDeadline with
      | none => exact ⟨h1, h2, h3⟩
      | some d =>
        show ListenInv c (if s.now ≥ d then _ else s)
        split
        · refine ⟨fun d0 hd0 => h1 d0 hd0, fun hs => h2 hs, fun t ht => ?_⟩
          obtain ⟨h3a, h3b, h3c, h3d, h3e, h3f⟩ := h3 t ht
          exact ⟨h3a, h3b, h3c, h3d, h3e, hfd ▸ h3f⟩
        · exact ⟨h1, h2, h3⟩
  | gracefulExitEv =>
    simp only [listenStep]
    split
    · exact ⟨h1, h2, h3⟩
    · split
      · exact ⟨h1, h2, h3⟩
      · exact ⟨h1, h2, h3⟩
  | signalEv =>
    simp only [listenStep]
    split
    · exact ⟨h1, h2, h3⟩
    · unfold finishListen
      split
      · refine ⟨fun d hd => h1 d hd, fun hs => h2 hs, fun t ht => ?_⟩
        obtain ⟨h3a, h3b, h3c, h3d, h3e, h3f⟩ := h3 t ht
        exact ⟨h3a, h3b, h3c, rfl, h3e, h3f⟩
      · refine ⟨by simp, fun hs => ⟨rfl, (h2 hs).2⟩, fun t ht => ?_⟩
        obtain ⟨h3a, h3b, h3c, h3d, h3e, h3f⟩ := h3 t ht
        refine ⟨h3a, rfl, h3c, rfl, h3e, ?_⟩
        rw [h3e]
        simpa using h3f

theorem listenInv_run (c : ListenCfg) (events : List LEvent) :
    ListenInv c (runListen c events) := by
  have hinit : ListenInv c (listenInit c) := by
    refine ⟨?_, ?_, ?_⟩
    · intro d hd
      unfold listenInit at hd
      by_cases he : recycleEnabled c = true
      · simp only [he, if_true] at hd
        simp only [Option.some.injEq] at hd
        exact ⟨hd.symm, he⟩
      · simp only [Bool.not_eq_true] at he
        simp [he] at hd
    · intro hs
      have he : recycleEnabled c = false := by
        simp [recycleEnabled, hs]
      constructor
      · simp [listenInit, he]
      · rfl
    · intro t ht
      simp [listenInit] at ht
  unfold runListen
  generalize listenInit c = st0 at hinit ⊢
  induction events generalizing st0 with
  | nil => exact hinit
  | cons ev rest ih => exact ih _ (listenInv_step c st0 ev hinit)

theorem listenStep_firedAt (c : ListenCfg) (s : ListenState) (e : LEvent)
    (t : Nat) (h : ListenInv c s) (hf : s.recycleFiredAt = some t) :
    (listenStep c s e).recycleFiredAt = some t := by
  have hdl : s.recycleDeadline = none := (h.2.2 t hf).2.1
  cases e with
  | tick dt =>
    simp only [listenStep]
    split
    · exact hf
    · exact hf
  | connectedEv =>
    simp only [listenStep]
    split
    · exact hf
    · exact hf
  | messageEv => exact hf
  | closedEv code =>
    simp only [listenStep]
    split
    · exact hf
    · split
      · unfold finishListen
        split
        · exact hf
        · exact hf
      · split
        · exact hf
        · exact hf
  | recycleFireEv =>
    simp only [listenStep]
    split
    · exact hf
    · rw [hdl]
      exact hf
  | forceExitFireEv =>
    simp only [listenStep]
    split
    · exact hf
    · cases hfd : s.forceExitDeadline with
      | none => exact hf
      | some d =>
        show (if s.now ≥ d then _ else s).recycleFiredAt = some t
        split
        · exact hf
        · exact hf
  | gracefulExitEv =>
    simp only [listenStep]
    split
    · exact hf
    · split
      · exact hf
      · exact hf
  | signalEv =>
    simp only [listenStep]
    split
    · exact hf
    · unfold finishListen
      split
      · exact hf
      · exact hf

/-- C4: with a recycle duration configured, the recycle timer fires at
most once and never before `recycleMs` has elapsed since listener start;
on firing the listener is stopped, `process.exitCode` is set to the
distinguished code 75, and a 3000 ms force-exit timer is armed whose
firing (when graceful shutdown has not completed) exits the process with
75, as does graceful completion after the fire; in supervised mode the
recycle timer is never armed and never fires; and message activity never
touches the recycle timer. -/
theorem C4_recycle_timer (c : ListenCfg) (events : List LEvent)
    (s : ListenState) (d t : Nat) (e : LEvent) :
    (c.supervised = true →
      (runListen c events).recycleDeadline = none
      ∧ (runListen c events).recycleFiredAt = none)
    ∧ ((runListen c events).recycleFiredAt = some t →
        t ≥ c.recycleMs
        ∧ (runListen c events).exitCode = some recycleExitCode
        ∧ (runListen c events).listenerStopped = true
        ∧ (runListen c events).forceExitDeadline = some (t + 3000)
        ∧ (runListen c events).recycleDeadline = none
        ∧ (listenStep c (runListen c events) e).recycleFiredAt = some t)
    ∧ (s.exited = none → s.forceExitDeadline = some d → s.now ≥ d →
        (listenStep c s .forceExitFireEv).exited = some recycleExitCode)
    ∧ (s.exited = none → s.finished = true → s.exitCode = some recycleExitCode →
        (listenStep c s .gracefulExitEv).exited = some recycleExitCode)
    ∧ listenStep c s .messageEv = s := by
  have hinv := listenInv_run c events
  refine ⟨?_, ?_, ?_, ?_, rfl⟩
  · intro hs
    exact hinv.2.1 hs
  · intro hf
    obtain ⟨h3a, h3b, h3c, h3d, h3e, h3f⟩ := hinv.2.2 t hf
    exact ⟨h3a, h3c, h3d, h3f, h3b, listenStep_firedAt c _ e t hinv hf⟩
  · intro hex hfd hnow
    simp only [listenStep, hex, Option.isSome_none, Bool.false_eq_true, if_false, hfd]
    rw [if_pos hnow]
  · intro hex hfin hcode
    simp [listenStep, hex, hfin, hcode]

/-- Closed witness for C4: with recycle configured at 100 ms, keep-alive
on, unsupervised, advancing the clock 100 ms and letting the timer fire
yields the fire at t = 100 with exit code 75, listener stopped and
force-exit armed at 3100; the subsequent force fire exits with 75. -/
theorem C4_recycle_timer_witness :
    (runListen ⟨false, true, 100, 2000, false⟩
        [.tick 100, .recycleFireEv]).recycleFiredAt = some 100 ∧
    (100 ≥ (100 : Nat)
      ∧ (runListen ⟨false, true, 100, 2000, false⟩
          [.tick 100, .recycleFireEv]).exitCode = some recycleExitCode
      ∧ (runListen ⟨false, true, 100, 2000, false⟩
          [.tick 100, .recycleFireEv]).listenerStopped = true
      ∧ (runListen ⟨false, true, 100, 2000, false⟩
          [.tick 100, .recycleFireEv]).forceExitDeadline = some (100 + 3000)
      ∧ (runListen ⟨false, true, 100, 2000, false⟩
          [.tick 100, .recycleFireEv]).recycleDeadline = none
      ∧ (listenStep ⟨false, true, 100, 2000, false⟩
          (runListen ⟨false, true, 100, 2000, false⟩ [.tick 100, .recycleFireEv])
          .recycleFireEv).recycleFiredAt = some 100) ∧
    (runListen ⟨true, true, 100, 2000, false⟩ []).recycleDeadline = none := by
  refine ⟨by decide, ?_, ?_⟩
  · exact (C4_recycle_timer ⟨false, true, 100, 2000, false⟩
      [.tick 100, .recycleFireEv] (listenInit ⟨false, true, 100, 2000, false⟩)
      0 100 .recycleFireEv).2.1 (by decide)
  · exact ((C4_recycle_timer ⟨true, true, 100, 2000, false⟩ []
      (listenInit ⟨true, true, 100, 2000, false⟩) 0 0 .messageEv).1 rfl).1

/-- C5: on a close event, when keep-alive is off or supervised mode is
on the listener finishes instead of restarting; otherwise a restart is
scheduled after the configured delay exactly when the close code is 1000
or 3000 or restart-on-any-close is set, and is not scheduled otherwise;
and a subsequent connected event cancels any pending keep-alive restart
timer. -/
theorem C5_close_restart_policy (c : ListenCfg) (s : ListenState)
    (code : Nat) (hex : s.exited = none) :
    ((c.keepAlive = false ∨ c.supervised = true) →
      listenStep c s (.closedEv code) = finishListen s
      ∧ (finishListen s).finished = true
      ∧ (finishListen s).recycleDeadline = (if s.finished then s.recycleDeadline else none))
    ∧ (c.keepAlive = true → c.supervised = false →
        ((c.keepAliveRestartOnAnyClose = true ∨ code = 1000 ∨ code = 3000) →
          listenStep c s (.closedEv code)
            = { s with restartDeadline := some (s.now + c.keepAliveRestartDelayMs) })
        ∧ (c.keepAliveRestartOnAnyClose = false → code ≠ 1000 → code ≠ 3000 →
          listenStep c s (.closedEv code) = s))
    ∧ (listenStep c s .connectedEv).restartDeadline = none := by
  refine ⟨?_, ?_, ?_⟩
  · intro hko
    refine ⟨?_, ?_, ?_⟩
    · rcases hko with hk | hsup
      · simp [listenStep, hex, hk]
      · simp [listenStep, hex, hsup]
    · unfold finishListen
      split
      next hfin => exact hfin
      next => rfl
    · unfold finishListen
      split
      next hfin => simp [hfin]
      next hfin => simp [hfin]
  · intro hka hsup
    constructor
    · intro hcode
      rcases hcode with hc | hc | hc
      · simp [listenStep, hex, hka, hsup, hc]
      · simp [listenStep, hex, hka, hsup, hc]
      · simp [listenStep, hex, hka, hsup, hc]
    · intro hany h1000 h3000
      simp [listenStep, hex, hka, hsup, hany, h1000, h3000]
  · simp [listenStep, hex]

/-- Closed witness for C5: a fresh unsupervised keep-alive listener
schedules a restart at `now + delay` on close code 1000, ignores close
code 1006, and a connected event clears the pending restart timer. -/
theorem C5_close_restart_policy_witness :
    (listenInit ⟨false, true, 0, 2000, false⟩).exited = none ∧
    listenStep ⟨false, true, 0, 2000, false⟩
        (listenInit ⟨false, true, 0, 2000, false⟩) (.closedEv 1000)
      = { listenInit ⟨false, true, 0, 2000, false⟩ with
          restartDeadline := some (0 + 2000) } ∧
    listenStep ⟨false, true, 0, 2000, false⟩
        (listenInit ⟨false, true, 0, 2000, false⟩) (.closedEv 1006)
      = listenInit ⟨false, true, 0, 2000, false⟩ ∧
    (listenStep ⟨false, true, 0, 2000, false⟩
        (listenInit ⟨false, true, 0, 2000, false⟩) .connectedEv).restartDeadline
      = none := by
  have h := C5_close_restart_policy ⟨false, true, 0, 2000, false⟩
    (listenInit ⟨false, true, 0, 2000, false⟩) 1000 rfl
  have h6 := C5_close_restart_policy ⟨false, true, 0, 2000, false⟩
    (listenInit ⟨false, true, 0, 2000, false⟩) 1006 rfl
  exact ⟨rfl, (h.2.1 rfl rfl).1 (Or.inr (Or.inl rfl)),
    (h6.2.1 rfl rfl).2 rfl (by decide) (by decide), h.2.2⟩

/-!
## Inbound media caching (`cacheInboundMediaToProfile`,
`cacheRemoteMediaEntries`, cli.ts:2062-2155) and the message handler's
drop/prefix step (cli.ts:4735-4750)

`fetch` is an external effect and enters as a pre-sampled
`FetchOutcome`; `contentLength` is the already-`Number()`-parsed
`content-length` header (`none` = absent or NaN).  The writes performed
under the profile's media cache directory are returned explicitly as the
second component, so "no file is written" is the empty list.
-/

inductive FetchOutcome where
  | fetchError : FetchOutcome
  | timeoutAbort : FetchOutcome
  | response (ok : Bool) (status : Nat) (contentType : Option String)
      (contentLength : Option Int) (bodyLen : Nat) : FetchOutcome

structure CachedMedia where
  mediaPath : String
  mediaType : Option String
deriving DecidableEq, Repr

/-- Transcription of `cacheInboundMediaToProfile`: abort and network
errors throw; a non-ok status throws; a finite declared content-length
over the limit skips (null); an empty or over-limit body skips (null);
otherwise the body is written to the generated target path. -/
def cacheInboundMediaToProfile (maxBytes : Nat) (outcome : FetchOutcome)
    (targetPath : String) : Except String (Option CachedMedia × List String) :=
  match outcome with
  | .fetchError => .error "fetch failed"
  | .timeoutAbort => .error "Timed out downloading inbound media"
  | .response ok _status contentType contentLength bodyLen =>
    if !ok then .error "Failed to download inbound media"
    else if (match contentLength with
        | some n => decide (n > (maxBytes : Int))
        | none => false) then .ok (none, [])
    else if bodyLen = 0 || decide (bodyLen > maxBytes) then .ok (none, [])
    else .ok (some ⟨targetPath, contentType⟩, [targetPath])

structure InboundMediaEntry where
  mediaPath : Option String
  mediaUrl : Option String
  mediaType : Option String
deriving DecidableEq, Repr

/-- Transcription of `cacheRemoteMediaEntries`: every url yields an
entry; a throw from the cache step is caught and logged, and the entry
then carries only the source url. -/
def cacheRemoteMediaEntries (maxBytes : Nat) (outcomes : String → FetchOutcome)
    (pathFor : String → String) (urls : List String) : List InboundMediaEntry :=
  urls.map fun mediaUrl =>
    match cacheInboundMediaToProfile maxBytes (outcomes mediaUrl) (pathFor mediaUrl) with
    | .ok (some cached, _) => ⟨some cached.mediaPath, some mediaUrl, cached.mediaType⟩
    | .ok (none, _) => ⟨none, some mediaUrl, none⟩
    | .error _ => ⟨none, some mediaUrl, none⟩

/-- JS `String.prototype.trimStart`. -/
def jsTrimStart (s : String) : String :=
  String.mk (s.data.dropWhile Char.isWhitespace)

/-- JS `String.prototype.startsWith`. -/
def jsStartsWith (s p : String) : Bool :=
  s.data.take p.data.length == p.data

/-- JS `String.prototype.slice(n)` (non-negative start). -/
def jsDrop (s : String) (n : Nat) : String := String.mk (s.data.drop n)

/-- The message handler's final gate (cli.ts:4735-4750): drop when the
synthesized text is blank and there is no reply-context line and no
reply-media note; then apply the prefix filter to a non-blank text;
then append the reply-media note and the reply-context line.  `none`
means the handler returns without printing, posting or echoing. -/
def finalizeInboundText (pfx processedText replyContextText replyMediaText : String) :
    Option String :=
  if jsTrim processedText = "" ∧ replyContextText = "" ∧ replyMediaText = "" then none
  else
    let step1 : Option String :=
      if pfx ≠ "" ∧ jsTrim processedText ≠ "" then
        if jsStartsWith processedText pfx then
          some (jsTrimStart (jsDrop processedText pfx.length))
        else none
      else some processedText
    match step1 with
    | none => none
    | some t1 =>
      let t2 :=
        if replyMediaText ≠ "" then
          (if jsTrim t1 ≠ "" then t1 ++ "\n" ++ replyMediaText else replyMediaText)
        else t1
      let t3 :=
        if replyContextText ≠ "" then
          (if jsTrim t2 ≠ "" then t2 ++ "\n" ++ replyContextText else replyContextText)
        else t2
      some t3

/-- C7 counterexample: with a message prefix filter configured (`"!"`),
an event whose synthesized text is non-blank (`"hello"`) is dropped when
the text does not start with the prefix — so "if any of the three parts
is non-empty the event is emitted" is false as stated. -/
theorem C7_counterexample_prefix_filter :
    jsTrim "hello" ≠ "" ∧ finalizeInboundText "!" "hello" "" "" = none := by
  exact ⟨by decide, by decide⟩
/-- C7 (amended): the event is dropped exactly when either (a) the
synthesized text is blank after trimming and there is no reply-context
line and no reply-media note, or (b) a non-empty message prefix filter
is configured, the synthesized text is non-blank, and it does not start
with the prefix.  In every other case the event is emitted (printed,
posted, echoed); in particular with no prefix configured, any non-empty
part suffices for emission. -/
theorem C7_empty_drop_amended (pfx t rc rm : String) :
    finalizeInboundText pfx t rc rm = none ↔
      (jsTrim t = "" ∧ rc = "" ∧ rm = "")
      ∨ (pfx ≠ "" ∧ jsTrim t ≠ "" ∧ jsStartsWith t pfx = false) := by
  unfold finalizeInboundText
  by_cases h0 : jsTrim t = "" ∧ rc = "" ∧ rm = ""
  · simp [h0]
  · rw [if_neg h0]
    by_cases hp : pfx ≠ "" ∧ jsTrim t ≠ ""
    · rw [if_pos hp]
      cases hsw : jsStartsWith t pfx with
      | true => simp [h0]
      | false => simp [hp.1, hp.2]
    · rw [if_neg hp]
      constructor
      · intro hcontra
        simp at hcontra
      · rintro (hA | hB)
        · exact absurd hA h0
        · exact absurd ⟨hB.1, hB.2.1⟩ hp

/-- C6: an inbound media url whose declared content-length or actual
body size exceeds the configured byte limit is skipped (the cache step
returns null and writes no file); a fetch error, timeout, or non-ok
HTTP status throws; in every such case `cacheRemoteMediaEntries`
still yields an entry carrying the source url and no local path, one
entry per url, and the event is still emitted whenever any other
content (text, reply-context line, reply-media note) exists. -/
theorem C6_media_limit_skip (maxBytes st bodyLen i : Nat) (ct : Option String)
    (clen : Option Int) (p url t rc rm : String) (urls : List String)
    (outcomes : String → FetchOutcome) (pathFor : String → String) :
    ((∃ n, clen = some n ∧ n > (maxBytes : Int)) ∨ bodyLen > maxBytes ∨ bodyLen = 0 →
      cacheInboundMediaToProfile maxBytes (.response true st ct clen bodyLen) p
        = .ok (none, []))
    ∧ cacheInboundMediaToProfile maxBytes .fetchError p = .error "fetch failed"
    ∧ cacheInboundMediaToProfile maxBytes .timeoutAbort p
        = .error "Timed out downloading inbound media"
    ∧ cacheInboundMediaToProfile maxBytes (.response false st ct clen bodyLen) p
        = .error "Failed to download inbound media"
    ∧ (cacheRemoteMediaEntries maxBytes outcomes pathFor urls).length = urls.length
    ∧ (urls[i]? = some url →
        (cacheInboundMediaToProfile maxBytes (outcomes url) (pathFor url) = .ok (none, [])
          ∨ ∃ m, cacheInboundMediaToProfile maxBytes (outcomes url) (pathFor url)
              = .error m) →
        (cacheRemoteMediaEntries maxBytes outcomes pathFor urls)[i]?
          = some ⟨none, some url, none⟩)
    ∧ ((jsTrim t ≠ "" ∨ rc ≠ "" ∨ rm ≠ "") →
        finalizeInboundText "" t rc rm ≠ none) := by
  refine ⟨?_, rfl, rfl, ?_, ?_, ?_, ?_⟩
  · intro h
    unfold cacheInboundMediaToProfile
    rcases h with ⟨n, rfl, hn⟩ | h | h
    · simp [hn]
    · rcases clen with _ | n
      · simp [Nat.ne_of_gt (Nat.lt_of_le_of_lt (Nat.zero_le _) h), h]
      · by_cases hn : n > (maxBytes : Int)
        · simp [hn]
        · simp [hn, Nat.ne_of_gt (Nat.lt_of_le_of_lt (Nat.zero_le _) h), h]
    · subst h
      rcases clen with _ | n
      · simp
      · by_cases hn : n > (maxBytes : Int)
        · simp [hn]
        · simp [hn]
  · rfl
  · simp [cacheRemoteMediaEntries]
  · intro hu hskip
    simp only [cacheRemoteMediaEntries, List.getElem?_map, hu, Option.map_some']
    rcases hskip with hok | ⟨m, herr⟩
    · rw [hok]
    · rw [herr]
  · intro h
    unfold finalizeInboundText
    have hno : ¬(jsTrim t = "" ∧ rc = "" ∧ rm = "") := by
      rintro ⟨a, b, c⟩
      rcases h with h | h | h
      · exact h a
      · exact h b
      · exact h c
    rw [if_neg hno]
    simp

/-- Closed witness for C6: a 10-byte body over a 5-byte limit is
skipped, the entry for its url keeps the url with no path, and a
non-blank caption still emits. -/
theorem C6_media_limit_skip_witness :
    cacheInboundMediaToProfile 5 (.response true 200 none (some 50) 10) "f"
      = .ok (none, []) ∧
    (cacheRemoteMediaEntries 5 (fun _ => .response true 200 none (some 50) 10)
        (fun _ => "f") ["u"])[0]? = some ⟨none, some "u", none⟩ ∧
    finalizeInboundText "" "hi" "" "" ≠ none := by
  have h := C6_media_limit_skip 5 200 10 0 none (some 50) "f" "u" "hi" "" ""
    ["u"] (fun _ => .response true 200 none (some 50) 10) (fun _ => "f")
  refine ⟨h.1 (Or.inl ⟨50, rfl, by decide⟩), ?_, ?_⟩
  · exact h.2.2.2.2.2.1 (by decide) (Or.inl rfl)
  · exact h.2.2.2.2.2.2 (Or.inl (by decide))

/-- C10: a successful download with an empty (zero-byte) body is
treated exactly like an oversize transfer: the cache step returns no
entry and writes no file, and the emitted media entry reports the
source url without a local path. -/
theorem C10_empty_body_media (maxBytes st i : Nat) (ct : Option String)
    (clen : Option Int) (p url : String) (urls : List String)
    (outcomes : String → FetchOutcome) (pathFor : String → String) :
    cacheInboundMediaToProfile maxBytes (.response true st ct clen 0) p
      = .ok (none, [])
    ∧ cacheInboundMediaToProfile maxBytes (.response true st ct clen 0) p
        = cacheInboundMediaToProfile maxBytes
            (.response true st ct clen (maxBytes + 1)) p
    ∧ (urls[i]? = some url → outcomes url = .response true st ct clen 0 →
        (cacheRemoteMediaEntries maxBytes outcomes pathFor urls)[i]?
          = some ⟨none, some url, none⟩) := by
  have hzero : ∀ q, cacheInboundMediaToProfile maxBytes (.response true st ct clen 0) q
      = .ok (none, []) := by
    intro q
    unfold cacheInboundMediaToProfile
    rcases clen with _ | n
    · simp
    · by_cases hn : n > (maxBytes : Int)
      · simp [hn]
      · simp [hn]
  have hover : cacheInboundMediaToProfile maxBytes
      (.response true st ct clen (maxBytes + 1)) p = .ok (none, []) := by
    unfold cacheInboundMediaToProfile
    rcases clen with _ | n
    · simp
    · by_cases hn : n > (maxBytes : Int)
      · simp [hn]
      · simp [hn]
  refine ⟨hzero p, (hzero p).trans hover.symm, ?_⟩
  intro hu houc
  simp only [cacheRemoteMediaEntries, List.getElem?_map, hu, Option.map_some']
  rw [houc, hzero (pathFor url)]

/-- Closed witness for C10 at a concrete empty-body download. -/
theorem C10_empty_body_media_witness :
    (cacheRemoteMediaEntries 5 (fun _ => .response true 200 none none 0)
        (fun _ => "f") ["u"])[0]? = some ⟨none, some "u", none⟩ :=
  (C10_empty_body_media 5 200 0 none none "f" "u" ["u"]
      (fun _ => .response true 200 none none 0) (fun _ => "f")).2.2
    (by decide) rfl

/-!
## Inbound mention extraction (`buildInboundMention`,
`collectInboundMentions`, `extractInboundMentions`, cli.ts:2400-2515;
helpers `asObject`, `getStringCandidate`, `looksLikeStructuredJsonString`,
`parseOptionalInt`, cli.ts:1710-1744, 2386-2398)

The source bounds recursion by `depth > 6`; here `fuel = 7 - depth`, so
the guard is `fuel = 0`.  `Number(...)` applied to a string is modelled
for blank strings (which coerce to 0) and optional-sign decimal integer
literals; other strings give NaN and hence no value, and fractional
offsets are out of the model.  `String(...)` of a number and the
template-string dedup key use `toString` on the integer.
-/

def asObject : Json → Option (List (String × Json))
  | .jobj fields => some fields
  | _ => none

/-- `looksLikeStructuredJsonString`: the trimmed string is at least two
characters and is brace- or bracket-delimited (character codes 123/125
and 91/93). -/
def looksLikeStructuredJsonString (value : String) : Bool :=
  let trimmed := jsTrim value
  if trimmed.length < 2 then false
  else
    let first := trimmed.data.head?
    let last := trimmed.data.getLast?
    (first = some (Char.ofNat 123) && last = some (Char.ofNat 125))
    || (first = some (Char.ofNat 91) && last = some (Char.ofNat 93))

/-- `getStringCandidate`: first key whose value is a non-blank string
(returned trimmed) or a finite number (returned via `String(...)`). -/
def getStringCandidate (record : List (String × Json)) : List String → String
  | [] => ""
  | key :: rest =>
    match jget (.jobj record) key with
    | some (.jstr s) =>
      if jsTrim s = "" then getStringCandidate record rest else jsTrim s
    | some (.jnum n) => toString n
    | _ => getStringCandidate record rest

def parseDigits : List Char → Option Nat
  | [] => none
  | ds =>
    ds.foldl
      (fun acc c => acc.bind (fun a =>
        if c.isDigit then some (a * 10 + (c.toNat - 48)) else none))
      (some 0)

/-- JS `Number(s)` followed by `Math.trunc`, restricted to blank strings
(0) and decimal integer literals. -/
def parseDecimalInt (s : String) : Option Int :=
  let t := jsTrim s
  if t = "" then some 0
  else
    match t.data with
    | '-' :: ds => (parseDigits ds).map (fun n => -(n : Int))
    | '+' :: ds => (parseDigits ds).map (fun n => (n : Int))
    | ds => (parseDigits ds).map (fun n => (n : Int))

/-- `parseOptionalInt`: a number is truncated, a string goes through
`Number(...)`, anything else (and NaN) gives no value. -/
def parseOptionalInt (v : Option Json) : Option Int :=
  match v with
  | some (.jnum n) => some n
  | some (.jstr s) => parseDecimalInt s
  | _ => none

structure InboundMention where
  uid : String
  pos : Option Int
  len : Option Int
  type : Option Int
  text : Option String
deriving DecidableEq, Repr

/-- `record.pos ?? record.offset ?? record.start ?? record.index`. -/
def mentionPosRaw (record : List (String × Json)) : Option Json :=
  jsNullish (jget (.jobj record) "pos")
    (jsNullish (jget (.jobj record) "offset")
      (jsNullish (jget (.jobj record) "start") (jget (.jobj record) "index")))

/-- `record.len ?? record.length`. -/
def mentionLenRaw (record : List (String × Json)) : Option Json :=
  jsNullish (jget (.jobj record) "len") (jget (.jobj record) "length")

/-- `record.type ?? record.kind`. -/
def mentionTypeRaw (record : List (String × Json)) : Option Json :=
  jsNullish (jget (.jobj record) "type") (jget (.jobj record) "kind")

/-- JS `rawText.slice(start, stop)` for in-range indices. -/
def jsSliceChars (s : String) (start stop : Nat) : String :=
  String.mk ((s.data.take stop).drop start)

/-- Transcription of `buildInboundMention`: uid from the candidate keys
(or the mention is discarded); optional pos/len/type; text from an
explicit label or by slicing the original message text at the declared
offset/length; a blank text is dropped from the record. -/
def buildInboundMention (record : List (String × Json)) (rawText : String) :
    Option InboundMention :=
  let uid := getStringCandidate record ["uid", "userId", "user_id", "id"]
  if uid = "" then none
  else
    let pos := parseOptionalInt (mentionPosRaw record)
    let len := parseOptionalInt (mentionLenRaw record)
    let type := parseOptionalInt (mentionTypeRaw record)
    let textCandidate := getStringCandidate record ["text", "label", "name"]
    let text0 :=
      if textCandidate ≠ "" then textCandidate
      else
        match pos, len with
        | some p, some l =>
          if l > 0 ∧ p ≥ 0 ∧ p < (rawText.length : Int) then
            jsSliceChars rawText p.toNat
              (min rawText.length (p + l).toNat)
          else ""
        | _, _ => ""
    let text := if jsTrim text0 = "" then "" else text0
    some { uid := uid, pos := pos, len := len, type := type,
           text := if text = "" then none else some text }

/-- The dedup key `${uid}|${pos ?? ""}|${len ?? ""}|${type ?? ""}`. -/
def mentionKey (m : InboundMention) : String :=
  m.uid ++ "|" ++ (match m.pos with | some n => toString n | none => "")
        ++ "|" ++ (match m.len with | some n => toString n | none => "")
        ++ "|" ++ (match m.type with | some n => toString n | none => "")

/-- The sink is a JS `Map` in insertion order: `set` replaces the value
of an existing key in place, else appends. -/
abbrev MentionSink := List (String × InboundMention)

def sinkSet (sink : MentionSink) (k : String) (m : InboundMention) : MentionSink :=
  if sink.any (fun q => q.1 = k) then
    sink.map (fun q => if q.1 = k then (k, m) else q)
  else sink ++ [(k, m)]

def mentionFieldNames : List String :=
  ["mentions", "mentionInfo", "mention_info", "mentionList", "mention_list",
   "mention"]

/-- Transcription of `collectInboundMentions` (fuel = 7 - depth): stop
on exhausted depth or a full sink; re-parse structured strings one level
deeper; walk arrays, adding mention-shaped objects directly (no size
check after such an add) and recursing into anything else with an early
return once the sink is full; on an object, take its own mention shape,
then the known mention-bearing fields, then every field value, each loop
with the same early return. -/
def collectInboundMentions (decode : String → Option Json) (rawText : String) :
    Nat → Json → MentionSink → MentionSink
  | 0, _, sink => sink
  | fuel + 1, v, sink =>
    if sink.length ≥ 64 then sink
    else
      match v with
      | .jstr s =>
        if looksLikeStructuredJsonString s then
          match decode s with
          | some parsed => collectInboundMentions decode rawText fuel parsed sink
          | none => sink
        else sink
      | .jarr items =>
        (items.foldl
          (fun st item =>
            if st.2 then st
            else
              match (asObject item).bind (fun r => buildInboundMention r rawText) with
              | some m => (sinkSet st.1 (mentionKey m) m, false)
              | none =>
                let sk := collectInboundMentions decode rawText fuel item st.1
                if sk.length ≥ 64 then (sk, true) else (sk, false))
          (sink, false)).1
      | .jobj record =>
        let sink1 :=
          match buildInboundMention record rawText with
          | some m => sinkSet sink (mentionKey m) m
          | none => sink
        let sink2 :=
          ((mentionFieldNames.filterMap (fun key => jget (.jobj record) key)).foldl
            (fun st v2 =>
              if st.2 then st
              else
                let sk := collectInboundMentions decode rawText fuel v2 st.1
                if sk.length ≥ 64 then (sk, true) else (sk, false))
            (sink1, false)).1
        (((record.map Prod.snd)).foldl
          (fun st v2 =>
            if st.2 then st
            else
              let sk := collectInboundMentions decode rawText fuel v2 st.1
              if sk.length ≥ 64 then (sk, true) else (sk, false))
          (sink2, false)).1
      | _ => sink

/-- The candidate loop of `extractInboundMentions` (an absent field is
skipped; the loop stops once the sink is full). -/
def extractLoop (decode : String → Option Json) (rawText : String) :
    List (Option Json) → MentionSink → MentionSink
  | [], sink => sink
  | none :: rest, sink => extractLoop decode rawText rest sink
  | some v :: rest, sink =>
    let sink1 := collectInboundMentions decode rawText 7 v sink
    if sink1.length ≥ 64 then sink1
    else extractLoop decode rawText rest sink1

/-- Transcription of `extractInboundMentions`: the mention-bearing
fields of the raw message, then its `content`, then the parsed content,
collected into the dedup map; the result is the map's values in
insertion order. -/
def extractInboundMentions (decode : String → Option Json)
    (messageData : List (String × Json)) (parsedContent : Option Json)
    (rawText : String) : List InboundMention :=
  (extractLoop decode rawText
    [ jget (.jobj messageData) "mentions"
    , jget (.jobj messageData) "mentionInfo"
    , jget (.jobj messageData) "mention_info"
    , jget (.jobj messageData) "mentionList"
    , jget (.jobj messageData) "mention_list"
    , jget (.jobj messageData) "mention"
    , jget (.jobj messageData) "content"
    , parsedContent ] []).map Prod.snd



/-- Sink invariant: keys are pairwise distinct and each key is the dedup
key of its mention. -/
def GoodSink (sink : MentionSink) : Prop :=
  (sink.map Prod.fst).Nodup ∧ ∀ p ∈ sink, p.1 = mentionKey p.2

theorem sinkSet_good (sink : MentionSink) (k : String) (m : InboundMention)
    (h : GoodSink sink) (hk : k = mentionKey m) : GoodSink (sinkSet sink k m) := by
  obtain ⟨hn, hc⟩ := h
  unfold sinkSet
  split
  next hmem =>
    constructor
    · have hkeys : (sink.map (fun q => if q.1 = k then (k, m) else q)).map Prod.fst
          = sink.map Prod.fst := by
        rw [List.map_map]
        apply List.map_congr_left
        intro q _
        by_cases hq1 : q.1 = k
        · simp [hq1]
        · simp [hq1]
      rw [hkeys]
      exact hn
    · intro p hp
      rcases List.mem_map.mp hp with ⟨q, hq, rfl⟩
      by_cases hq1 : q.1 = k
      · simp [hq1, hk]
      · simpa [hq1] using hc q hq
  next hmem =>
    have hnotin : k ∉ sink.map Prod.fst := by
      intro hin
      rcases List.mem_map.mp hin with ⟨q, hq, hq1⟩
      exact hmem (List.any_eq_true.mpr ⟨q, hq, by simp [hq1]⟩)
    constructor
    · rw [List.map_append]
      simp only [List.map_cons, List.map_nil]
      rw [List.nodup_append]
      exact ⟨hn, List.nodup_singleton k, by
        intro a ha hb
        simp only [List.mem_singleton] at hb
        exact hnotin (hb ▸ ha)⟩
    · intro p hp
      rcases List.mem_append.mp hp with hp | hp
      · exact hc p hp
      · simp only [List.mem_singleton] at hp
        subst hp
        exact hk

theorem collect_good (decode : String → Option Json) (rawText : String) :
    ∀ (fuel : Nat) (v : Json) (sink : MentionSink), GoodSink sink →
      GoodSink (collectInboundMentions decode rawText fuel v sink) := by
  intro fuel
  induction fuel with
  | zero =>
    intro v sink hg
    exact hg
  | succ f ih =>
    have hfold : ∀ (g : MentionSink × Bool → Json → MentionSink × Bool),
        (∀ st item, GoodSink st.1 → GoodSink (g st item).1) →
        ∀ (vs : List Json) (st : MentionSink × Bool),
          GoodSink st.1 → GoodSink (vs.foldl g st).1 := by
      intro g hgs vs
      induction vs with
      | nil =>
        intro st h
        exact h
      | cons a rest ihl =>
        intro st h
        rw [List.foldl_cons]
        exact ihl _ (hgs st a h)
    have hstepArr : ∀ (st : MentionSink × Bool) (item : Json), GoodSink st.1 →
        GoodSink ((if st.2 then st
          else
            match (asObject item).bind (fun r => buildInboundMention r rawText) with
            | some m => (sinkSet st.1 (mentionKey m) m, false)
            | none =>
              let sk := collectInboundMentions decode rawText f item st.1
              if sk.length ≥ 64 then (sk, true) else (sk, false))).1 := by
      intro st item h
      by_cases hst : st.2 = true
      · simpa [hst] using h
      · rw [if_neg hst]
        cases hm : (asObject item).bind (fun r => buildInboundMention r rawText) with
        | some m => exact sinkSet_good st.1 (mentionKey m) m h rfl
        | none =>
          have h1 := ih item st.1 h
          by_cases hlen :
              (collectInboundMentions decode rawText f item st.1).length ≥ 64
          · simpa [hlen] using h1
          · simpa [hlen] using h1
    have hstepSeq : ∀ (st : MentionSink × Bool) (v2 : Json), GoodSink st.1 →
        GoodSink ((if st.2 then st
          else
            let sk := collectInboundMentions decode rawText f v2 st.1
            if sk.length ≥ 64 then (sk, true) else (sk, false))).1 := by
      intro st v2 h
      by_cases hst : st.2 = true
      · simpa [hst] using h
      · rw [if_neg hst]
        have h1 := ih v2 st.1 h
        by_cases hlen :
            (collectInboundMentions decode rawText f v2 st.1).length ≥ 64
        · simpa [hlen] using h1
        · simpa [hlen] using h1
    intro v sink hg
    cases v with
    | jstr s =>
      show GoodSink (if sink.length ≥ 64 then sink else
        if looksLikeStructuredJsonString s then
          (match decode s with
           | some parsed => collectInboundMentions decode rawText f parsed sink
           | none => sink)
        else sink)
      split
      · exact hg
      · split
        · cases hd : decode s with
          | some parsed => exact ih parsed sink hg
          | none => exact hg
        · exact hg
    | jarr items =>
      show GoodSink (if sink.length ≥ 64 then sink
        else (items.foldl _ (sink, false)).1)
      split
      · exact hg
      · exact hfold _ hstepArr items (sink, false) hg
    | jobj record =>
      show GoodSink (if sink.length ≥ 64 then sink else _)
      split
      · exact hg
      · refine hfold _ hstepSeq _ _ (hfold _ hstepSeq _ _ ?_)
        cases hm : buildInboundMention record rawText with
        | some m => exact sinkSet_good sink (mentionKey m) m hg rfl
        | none => exact hg
    | jnull =>
      show GoodSink (if sink.length ≥ 64 then sink else sink)
      split <;> exact hg
    | jbool b =>
      show GoodSink (if sink.length ≥ 64 then sink else sink)
      split <;> exact hg
    | jnum n =>
      show GoodSink (if sink.length ≥ 64 then sink else sink)
      split <;> exact hg

theorem extractLoop_good (decode : String → Option Json) (rawText : String)
    (cands : List (Option Json)) (sink : MentionSink) (hg : GoodSink sink) :
    GoodSink (extractLoop decode rawText cands sink) := by
  induction cands generalizing sink with
  | nil => exact hg
  | cons cand rest ih =>
    cases cand with
    | none => exact ih sink hg
    | some v =>
      rw [extractLoop]
      have hg1 := collect_good decode rawText 7 v sink hg
      by_cases hlen :
          (collectInboundMentions decode rawText 7 v sink).length ≥ 64
      · simpa [hlen] using hg1
      · simpa [hlen] using ih _ hg1

/-- C8 counterexample: two mention records that differ only in their
label collapse to a single extracted mention (the later one wins),
because the dedup key is `uid|pos|len|type` and does not include the
resolved text — falsifying "deduplicated by the tuple of the mention's
fields (userId, position, length, kind, text)", under which the two
distinct mentions would both be kept. -/
theorem C8_counterexample_dedup_drops_text :
    extractInboundMentions (fun _ => none)
      [("mentions", .jarr
        [ .jobj [("uid", .jstr "u"), ("pos", .jnum 0), ("len", .jnum 2),
                 ("label", .jstr "aa")]
        , .jobj [("uid", .jstr "u"), ("pos", .jnum 0), ("len", .jnum 2),
                 ("label", .jstr "bb")] ])]
      none "xy"
      = [⟨"u", some 0, some 2, none, some "bb"⟩]
    ∧ buildInboundMention
        [("uid", .jstr "u"), ("pos", .jnum 0), ("len", .jnum 2),
         ("label", .jstr "aa")] "xy"
        = some ⟨"u", some 0, some 2, none, some "aa"⟩
    ∧ buildInboundMention
        [("uid", .jstr "u"), ("pos", .jnum 0), ("len", .jnum 2),
         ("label", .jstr "bb")] "xy"
        = some ⟨"u", some 0, some 2, none, some "bb"⟩ := by
  exact ⟨by decide, by decide, by decide⟩

/-- Decoder for the three-level serialized-JSON nesting example: the
outer string parses to an object whose field is again a serialized
string, three levels down to the mention array. -/
def exDecode : String → Option Json := fun s =>
  if s = "\x7bL1\x7d" then
    some (.jobj [("mentions", .jarr
      [ .jobj [("uid", .jstr "u1"), ("pos", .jnum 0), ("len", .jnum 2)]
      , .jobj [("uid", .jstr "u2"), ("pos", .jnum 3), ("len", .jnum 2)] ])])
  else if s = "\x7bL2\x7d" then some (.jobj [("content", .jstr "\x7bL1\x7d")])
  else if s = "\x7bL3\x7d" then some (.jobj [("data", .jstr "\x7bL2\x7d")])
  else none

/-- C8 (amended): mention extraction collects mentions recursively from
every mention-bearing field and from nested serialized-JSON strings (a
three-level nesting is recovered in full, with texts sliced correctly
from the original message at the declared offset/length); each mention's
text resolves from an explicit label or by slicing; and the result is
deduplicated by the string key `uid|pos|len|type` — the tuple of userId,
position, length and kind, with the text NOT part of the key (of two
mentions sharing the key, the later record wins). -/
theorem C8_mentions_amended (decode : String → Option Json)
    (md : List (String × Json)) (pc : Option Json)
    (rawText u s : String) (record : List (String × Json)) (p l : Int) :
    (extractInboundMentions exDecode [("content", .jstr "\x7bL3\x7d")] none "hello"
      = [⟨"u1", some 0, some 2, none, some "he"⟩,
         ⟨"u2", some 3, some 2, none, some "lo"⟩])
    ∧ List.Pairwise (fun a b => mentionKey a ≠ mentionKey b)
        (extractInboundMentions decode md pc rawText)
    ∧ (getStringCandidate record ["uid", "userId", "user_id", "id"] = u →
        u ≠ "" →
        getStringCandidate record ["text", "label", "name"] = s →
        jsTrim s ≠ "" →
        ∃ mm, buildInboundMention record rawText = some mm ∧ mm.uid = u
          ∧ mm.text = some s)
    ∧ (getStringCandidate record ["uid", "userId", "user_id", "id"] = u →
        u ≠ "" →
        getStringCandidate record ["text", "label", "name"] = "" →
        parseOptionalInt (mentionPosRaw record) = some p →
        parseOptionalInt (mentionLenRaw record) = some l →
        l > 0 → p ≥ 0 → p < (rawText.length : Int) →
        jsTrim (jsSliceChars rawText p.toNat
          (min rawText.length (p + l).toNat)) ≠ "" →
        ∃ mm, buildInboundMention record rawText = some mm ∧ mm.uid = u
          ∧ mm.pos = some p ∧ mm.len = some l
          ∧ mm.text = some (jsSliceChars rawText p.toNat
              (min rawText.length (p + l).toNat))) := by
  refine ⟨by decide, ?_, ?_, ?_⟩
  · have hg := extractLoop_good decode rawText
      [ jget (.jobj md) "mentions", jget (.jobj md) "mentionInfo"
      , jget (.jobj md) "mention_info", jget (.jobj md) "mentionList"
      , jget (.jobj md) "mention_list", jget (.jobj md) "mention"
      , jget (.jobj md) "content", pc ] [] ⟨by simp, by simp⟩
    obtain ⟨hn, hc⟩ := hg
    unfold extractInboundMentions
    rw [List.pairwise_map]
    have hn2 : List.Pairwise (fun a b : String × InboundMention => a.1 ≠ b.1)
        (extractLoop decode rawText
          [ jget (.jobj md) "mentions", jget (.jobj md) "mentionInfo"
          , jget (.jobj md) "mention_info", jget (.jobj md) "mentionList"
          , jget (.jobj md) "mention_list", jget (.jobj md) "mention"
          , jget (.jobj md) "content", pc ] []) := List.pairwise_map.mp hn
    refine hn2.imp_of_mem ?_
    intro a b ha hb hab
    rw [hc a ha, hc b hb] at hab
    exact hab
  · intro huid hu htext hstrim
    have hs : s ≠ "" := by
      intro h
      subst h
      exact hstrim rfl
    have heq : buildInboundMention record rawText
        = some ⟨u, parseOptionalInt (mentionPosRaw record),
            parseOptionalInt (mentionLenRaw record),
            parseOptionalInt (mentionTypeRaw record), some s⟩ := by
      simp only [buildInboundMention, huid, htext]
      rw [if_neg hu]
      simp [hs, hstrim]
    exact ⟨_, heq, rfl, rfl⟩
  · intro huid hu htext hpos hlen hl hp hplen htrim
    have hslice : jsSliceChars rawText p.toNat (min rawText.length (p + l).toNat)
        ≠ "" := by
      intro h
      rw [h] at htrim
      exact htrim rfl
    have heq : buildInboundMention record rawText
        = some ⟨u, some p, some l, parseOptionalInt (mentionTypeRaw record),
            some (jsSliceChars rawText p.toNat
              (min rawText.length (p + l).toNat))⟩ := by
      simp only [buildInboundMention, huid, htext, hpos, hlen]
      rw [if_neg hu]
      rw [if_neg (fun h => h rfl : ¬("" : String) ≠ "")]
      rw [if_pos (⟨hl, hp, hplen⟩ : l > 0 ∧ p ≥ 0 ∧ p < (rawText.length : Int))]
      simp [htrim, hslice]
    exact ⟨_, heq, rfl, rfl, rfl, rfl⟩

/-- Closed witness for the amended C8 theorem: a concrete mention record
with an explicit label resolves to that label. -/
theorem C8_mentions_amended_witness :
    ∃ mm, buildInboundMention [("uid", .jstr "u"), ("label", .jstr "Al")] "zz"
        = some mm ∧ mm.uid = "u" ∧ mm.text = some "Al" :=
  (C8_mentions_amended (fun _ => none) [] none "zz" "u" "Al"
    [("uid", .jstr "u"), ("label", .jstr "Al")] 0 0).2.2.1 (by decide)
    (by decide) (by decide) (by decide)
